import Mathlib

/-!
# ASTROID: a verification development for `index.js`

The program is a small asteroids game.  Its numbers are JavaScript numbers;
this development reads them as elements of a linearly ordered field `α`
(exact arithmetic), and the functions of JavaScript's `Math` object that are
not field operations (`Math.sqrt`, `Math.cos`, `Math.sin`) are passed in as a
record `MathLib α`.  All definitions are plain computable functions of that
record; the theorems instantiate it with the real functions (`realMath`).
Where rounding decides a statement, the binary64 numbers (`F64`, `f64Math`)
are used instead.

Drawing (`draw()`, `ctx.*`) has no effect on the simulated state and is left
out of the state transformers.
-/

set_option autoImplicit false

namespace Astroid

/-! ## Data model -/

/-- The functions of `Math` used by the program beyond field arithmetic. -/
structure MathLib (α : Type) where
  /-- `Math.sqrt` -/
  sqrt : α → α
  /-- `Math.cos` -/
  cos : α → α
  /-- `Math.sin` -/
  sin : α → α

/-- A point or a velocity: the object literal with fields `x` and `y`. -/
structure Vec (α : Type) where
  x : α
  y : α
deriving DecidableEq, Repr

/-- The fields shared by `class Projectile` and `class Asteroids`
(index.js 63-104): both own `position`, `velocity`, `radius`, and both have the
same `update()`.  The geometry functions read `position` and `radius` only. -/
structure Body (α : Type) where
  position : Vec α
  velocity : Vec α
  radius : α
deriving DecidableEq, Repr

/-- The fields of `class Player` (index.js 8-13). -/
structure Player (α : Type) where
  position : Vec α
  velocity : Vec α
  rotation : α
deriving DecidableEq, Repr

/-- A triangle as the program uses it: an array read at the indices 0, 1, 2,
the successor index being taken modulo 3 (addition in `Fin 3`). -/
abbrev Triangle (α : Type) := Fin 3 → Vec α

section Circles

variable {α : Type} [Add α] [Sub α] [Mul α] [LE α] [DecidableRel fun a b : α => a ≤ b]

/-! ## Geometry (index.js 170-216) -/

/-- Function `circleClolosion` (index.js 170-175).  It uses subtraction,
multiplication, addition, `Math.sqrt` and `<=` only, and is written for every
number type that has them: the real numbers and the binary64 numbers below. -/
def circleClolosion (M : MathLib α) (circle1 circle2 : Body α) : Bool :=
  let xDiff := circle2.position.x - circle1.position.x
  let yDiff := circle2.position.y - circle1.position.y
  let distance := M.sqrt (xDiff * xDiff + yDiff * yDiff)
  decide (distance ≤ circle1.radius + circle2.radius)

end Circles

section Geometry

variable {α : Type} [LinearOrderedField α]

/-- Function `isPointOnLineSegment` (index.js 209-216): a bounding-box test. -/
def isPointOnLineSegment (x y : α) (start end_ : Vec α) : Bool :=
  decide (x ≥ min start.x end_.x) &&
  decide (x ≤ max start.x end_.x) &&
  decide (y ≥ min start.y end_.y) &&
  decide (y ≤ max start.y end_.y)

/-- The projection of the circle's centre on the line through an edge
(index.js 183-189): the values of `closestX`, `closestY` before the clamp.
`Math.pow(length, 2)` is `length ^ 2`. -/
def projection (M : MathLib α) (circle : Body α) (start end_ : Vec α) : Vec α :=
  let dx := end_.x - start.x
  let dy := end_.y - start.y
  let length := M.sqrt (dx * dx + dy * dy)
  let dot := ((circle.position.x - start.x) * dx + (circle.position.y - start.y) * dy) / length ^ 2
  { x := start.x + dot * dx, y := start.y + dot * dy }

/-- The point `(closestX, closestY)` after the clamp of index.js 191-194: the
point whose distance to the centre is compared with the radius. -/
def closestPoint (M : MathLib α) (circle : Body α) (start end_ : Vec α) : Vec α :=
  let p := projection M circle start end_
  if !isPointOnLineSegment p.x p.y start end_ then
    { x := if p.x < start.x then start.x else end_.x,
      y := if p.y < start.y then start.y else end_.y }
  else p

/-- One iteration of the loop of `circleTriangleCollision` (index.js 180-203):
whether the edge from `start` to `end_` reports a collision. -/
def edgeCollision (M : MathLib α) (circle : Body α) (start end_ : Vec α) : Bool :=
  let c := closestPoint M circle start end_
  let dx := c.x - circle.position.x
  let dy := c.y - circle.position.y
  let distance := M.sqrt (dx * dx + dy * dy)
  decide (distance ≤ circle.radius)

/-- Function `circleTriangleCollision` (index.js 178-206).  The loop
`for (i = 0; i < 3; i++)` returns `true` at the first edge that reports a
collision and `false` after the third: `any` over the indices 0, 1, 2, with
`triangle[(i + 1) % 3]` the entry at `i + 1` in `Fin 3`. -/
def circleTriangleCollision (M : MathLib α) (circle : Body α) (triangle : Triangle α) : Bool :=
  (List.finRange 3).any fun i => edgeCollision M circle (triangle i) (triangle (i + 1))

end Geometry

section Entities

variable {α : Type} [LinearOrderedField α]

/-! ## Entities (index.js 8-104) -/

/-- Method `Player.update` (index.js 34-38): the position advances by the
velocity. -/
def Player.update (p : Player α) : Player α :=
  { p with position := { x := p.position.x + p.velocity.x, y := p.position.y + p.velocity.y } }

/-- Method `Player.getVertices` (index.js 41-59). -/
def Player.getVertices (M : MathLib α) (p : Player α) : Triangle α :=
  let cos := M.cos p.rotation
  let sin := M.sin p.rotation
  ![{ x := p.position.x + cos * 30 - sin * 0,
      y := p.position.y + sin * 30 + cos * 0 },
    { x := p.position.x + cos * -10 - sin * 10,
      y := p.position.y + sin * -10 + cos * 10 },
    { x := p.position.x + cos * -10 - sin * -10,
      y := p.position.y + sin * -10 + cos * -10 }]

/-- The constructor of `class Projectile` (index.js 64-68): the radius is 5. -/
def Projectile.new (position velocity : Vec α) : Body α :=
  { position := position, velocity := velocity, radius := 5 }

/-- Methods `Projectile.update` and `Asteroids.update` (index.js 77-81 and
99-103): the position advances by the velocity. -/
def Body.update (b : Body α) : Body α :=
  { b with position := { x := b.position.x + b.velocity.x, y := b.position.y + b.velocity.y } }

end Entities

section Session

variable {α : Type} [LinearOrderedField α]

/-! ## Session state (index.js 1-5 and 107-122) -/

/-- The two dimensions of the canvas, fixed when the script is loaded. -/
structure Canvas (α : Type) where
  width : α
  height : α

/-- The object `keys` (index.js 113-117): the three `pressed` flags. -/
structure Keys where
  w : Bool
  a : Bool
  d : Bool
deriving DecidableEq, Repr

/-- The mutable globals of the script.  `gameOver` records that the branch of
index.js 245-247 has run (animation frame cancelled, spawner interval cleared,
alert shown). -/
structure Game (α : Type) where
  player : Player α
  keys : Keys
  projectiles : List (Body α)
  asteroids : List (Body α)
  gameOver : Bool

/-- Constant `SPEED` (index.js 119). -/
def SPEED : α := 3

/-- Constant `FRICTION` (index.js 120). -/
def FRICTION : α := 0.96

/-- The globals as the script initialises them (index.js 107-122). -/
def Game.init (canvas : Canvas α) : Game α :=
  { player :=
      { position := { x := canvas.width / 2, y := canvas.height / 2 },
        velocity := { x := 0, y := 0 },
        rotation := 0 },
    keys := { w := false, a := false, d := false },
    projectiles := [],
    asteroids := [],
    gameOver := false }

/-! ## Spawner (index.js 125-167) -/

/-- The asteroid built by the callback of `window.setInterval`
(index.js 126-166), as a function of the three values that `Math.random()`
returns in it, in the order of the calls.  `none` is the case in which no
`case` of the `switch` matches and the coordinates stay `undefined`. -/
def spawn [FloorRing α] (canvas : Canvas α) (rand0 rand1 rand2 : α) : Option (Body α) :=
  let index : ℤ := ⌊rand0 * 4⌋
  let radius := 50 * rand1 + 10
  if index = 0 then
    some { position := { x := 0 - radius, y := rand2 * canvas.height },
           velocity := { x := 1, y := 0 }, radius := radius }
  else if index = 1 then
    some { position := { x := rand2 * canvas.width, y := canvas.height + radius },
           velocity := { x := 0, y := -1 }, radius := radius }
  else if index = 2 then
    some { position := { x := canvas.width + radius, y := rand2 * canvas.height },
           velocity := { x := -1, y := 0 }, radius := radius }
  else if index = 3 then
    some { position := { x := rand2 * canvas.width, y := 0 - radius },
           velocity := { x := 0, y := 1 }, radius := radius }
  else none

/-- The callback of `window.setInterval` (index.js 125-167): the new asteroid
is pushed at the end of `asteroids`. -/
def spawnTick [FloorRing α] (canvas : Canvas α) (rand0 rand1 rand2 : α) (g : Game α) :
    Option (Game α) :=
  (spawn canvas rand0 rand1 rand2).map fun a => { g with asteroids := g.asteroids ++ [a] }

/-! ## The frame (index.js 219-276) -/

/-- The removal test of index.js 232-233 and 251-252. -/
def offScreen (canvas : Canvas α) (b : Body α) : Bool :=
  decide (b.position.x + b.radius < 0) || decide (b.position.x - b.radius > canvas.width) ||
  decide (b.position.y - b.radius > canvas.height) || decide (b.position.y + b.radius < 0)

/-- The projectile loop (index.js 227-236).  The counter `i + 1` stands for the
loop variable `i`; the loop is entered with the counter `projectiles.length`.
Reading `projectiles[i]` beyond the end gives `undefined` and the call of
`update` on it throws: `none`. -/
def projectileLoop (canvas : Canvas α) : ℕ → List (Body α) → Option (List (Body α))
  | 0, projectiles => some projectiles
  | i + 1, projectiles => do
    let projectile ← projectiles[i]?
    let projectile := projectile.update
    let projectiles := projectiles.set i projectile
    let projectiles := if offScreen canvas projectile then projectiles.eraseIdx i else projectiles
    projectileLoop canvas i projectiles

/-- The loop over the projectiles inside the asteroid loop (index.js 257-263),
for the asteroid `asteroid` read at index `i`.  The state is the pair
(`asteroids`, `projectiles`); `splice(i, 1)` is `eraseIdx i`, which leaves a
list unchanged when `i` is not an index of it. -/
def collisionLoop (M : MathLib α) (asteroid : Body α) (i : ℕ) :
    ℕ → List (Body α) × List (Body α) → Option (List (Body α) × List (Body α))
  | 0, st => some st
  | j + 1, (asteroids, projectiles) => do
    let projectile ← projectiles[j]?
    let st :=
      if circleClolosion M asteroid projectile then
        (asteroids.eraseIdx i, projectiles.eraseIdx j)
      else (asteroids, projectiles)
    collisionLoop M asteroid i j st

/-- The state of the asteroid loop. -/
structure LoopState (α : Type) where
  asteroids : List (Body α)
  projectiles : List (Body α)
  gameOver : Bool

/-- The asteroid loop (index.js 239-264), with the counter as in
`projectileLoop`; `player` is the player after its `update`. -/
def asteroidLoop (M : MathLib α) (canvas : Canvas α) (player : Player α) :
    ℕ → LoopState α → Option (LoopState α)
  | 0, st => some st
  | i + 1, st => do
    let asteroid ← st.asteroids[i]?
    let asteroid := asteroid.update
    let asteroids := st.asteroids.set i asteroid
    let gameOver :=
      if circleTriangleCollision M asteroid (player.getVertices M) then true else st.gameOver
    let asteroids := if offScreen canvas asteroid then asteroids.eraseIdx i else asteroids
    let (asteroids, projectiles) ←
      collisionLoop M asteroid i st.projectiles.length (asteroids, st.projectiles)
    asteroidLoop M canvas player i
      { asteroids := asteroids, projectiles := projectiles, gameOver := gameOver }

/-- Function `animate` (index.js 219-276): one frame. -/
def animate (M : MathLib α) (canvas : Canvas α) (g : Game α) : Option (Game α) := do
  let player := g.player.update
  let projectiles ← projectileLoop canvas g.projectiles.length g.projectiles
  let st ← asteroidLoop M canvas player g.asteroids.length
    { asteroids := g.asteroids, projectiles := projectiles, gameOver := g.gameOver }
  let velocity : Vec α :=
    if g.keys.w then
      { x := M.cos player.rotation * SPEED, y := M.sin player.rotation * SPEED }
    else
      { x := player.velocity.x * FRICTION, y := player.velocity.y * FRICTION }
  let rotation :=
    if g.keys.d then player.rotation + 0.06
    else if g.keys.a then player.rotation - 0.06
    else player.rotation
  some
    { player := { position := player.position, velocity := velocity, rotation := rotation },
      keys := g.keys,
      projectiles := st.projectiles,
      asteroids := st.asteroids,
      gameOver := st.gameOver }

/-- The frames run one after the other: `n` calls of `animate`. -/
def frames (M : MathLib α) (canvas : Canvas α) : ℕ → Game α → Option (Game α)
  | 0, g => some g
  | n + 1, g => (animate M canvas g).bind (frames M canvas n)

/-! ## Key events (index.js 280-324) -/

/-- The `keydown` listener (index.js 280-307), on `event.code`. -/
def keydown (M : MathLib α) (code : String) (g : Game α) : Game α :=
  if code = "KeyW" then { g with keys := { g.keys with w := true } }
  else if code = "KeyA" then { g with keys := { g.keys with a := true } }
  else if code = "KeyD" then { g with keys := { g.keys with d := true } }
  else if code = "Space" then
    { g with
      projectiles := g.projectiles ++
        [Projectile.new
          { x := g.player.position.x + M.cos g.player.rotation * 30,
            y := g.player.position.y + M.sin g.player.rotation * 30 }
          { x := M.cos g.player.rotation * 5,
            y := M.sin g.player.rotation * 5 }] }
  else g

/-- The `keyup` listener (index.js 310-324), on `event.code`. -/
def keyup (code : String) (g : Game α) : Game α :=
  if code = "KeyW" then { g with keys := { g.keys with w := false } }
  else if code = "KeyA" then { g with keys := { g.keys with a := false } }
  else if code = "KeyD" then { g with keys := { g.keys with d := false } }
  else g

/-! ## Sessions -/

/-- What the browser delivers to the script: a call of `animate`, or a key
event with its `event.code`. -/
inductive Event where
  | frame
  | keydown (code : String)
  | keyup (code : String)
deriving DecidableEq, Repr

/-- The effect of one event on the globals. -/
def step (M : MathLib α) (canvas : Canvas α) : Event → Game α → Option (Game α)
  | .frame, g => animate M canvas g
  | .keydown code, g => some (keydown M code g)
  | .keyup code, g => some (keyup code g)

/-- The effect of a finite sequence of events, handled one after the other. -/
def run (M : MathLib α) (canvas : Canvas α) : List Event → Game α → Option (Game α)
  | [], g => some g
  | e :: es, g => (step M canvas e g).bind (run M canvas es)

end Session

section Reference

variable {α : Type} [LinearOrderedField α]

/-! ## The clamp as the specification words it -/

/-- The clamp in the words of the specification (§4.1): when the projected
point is outside the bounding box of the edge, "choose start if the projected
x is less than start's x, else end". -/
def closestPointSpec (M : MathLib α) (circle : Body α) (start end_ : Vec α) : Vec α :=
  let p := projection M circle start end_
  if !isPointOnLineSegment p.x p.y start end_ then
    if p.x < start.x then start else end_
  else p

/-- The edge test with the clamp of the specification. -/
def edgeCollisionSpec (M : MathLib α) (circle : Body α) (start end_ : Vec α) : Bool :=
  let c := closestPointSpec M circle start end_
  let dx := c.x - circle.position.x
  let dy := c.y - circle.position.y
  let distance := M.sqrt (dx * dx + dy * dy)
  decide (distance ≤ circle.radius)

/-- The triangle test with the clamp of the specification. -/
def circleTriangleCollisionSpec (M : MathLib α) (circle : Body α) (triangle : Triangle α) :
    Bool :=
  (List.finRange 3).any fun i => edgeCollisionSpec M circle (triangle i) (triangle (i + 1))

end Reference

section Binary64

/-! ## Binary64 numbers

JavaScript numbers are IEEE 754 binary64 values.  The finite ones are kept here
as the rational numbers they denote, and an operation returns the rounding of
the exact result: 53 significant bits, to nearest, ties to even.  Overflow,
subnormal numbers, infinities and NaN are outside this model. -/

/-- The integer nearest to `q`; when `q` is half-way between two integers, the
even one. -/
def roundHalfEven (q : ℚ) : ℤ :=
  if q - ⌊q⌋ < 1 / 2 then ⌊q⌋
  else if 1 / 2 < q - ⌊q⌋ then ⌊q⌋ + 1
  else if ⌊q⌋ % 2 = 0 then ⌊q⌋
  else ⌊q⌋ + 1

/-- The binary64 value nearest to `q`: with `2 ^ e ≤ |q| < 2 ^ (e + 1)`, the
multiple of `2 ^ (e - 52)` nearest to `q`, ties to the even multiple. -/
def round64 (q : ℚ) : ℚ :=
  if q = 0 then 0
  else roundHalfEven (q / 2 ^ (Int.log 2 |q| - 52)) * 2 ^ (Int.log 2 |q| - 52)

/-- The binary64 value of `Math.sqrt` on a positive `q`: the rounding of the
exact square root.  With `r` the integer part of the square root of
`q * 4 ^ k`, where `k` makes `r` longer than 53 bits, the exact square root
times `2 ^ k` is `r` or lies strictly between `r` and `r + 1`, and rounds as
`r + 1 / 2` does. -/
def sqrt64 (q : ℚ) : ℚ :=
  if q ≤ 0 then 0
  else
    let k : ℤ := 55 - Int.log 2 q / 2
    let r : ℕ := Nat.sqrt ⌊q * 4 ^ k⌋₊
    round64 ((if (r : ℚ) * r = q * 4 ^ k then (r : ℚ) else r + 1 / 2) / 2 ^ k)

/-- A finite JavaScript number, as the rational number it denotes. -/
structure F64 where
  val : ℚ
deriving DecidableEq

instance : Add F64 := ⟨fun a b => ⟨round64 (a.val + b.val)⟩⟩

instance : Sub F64 := ⟨fun a b => ⟨round64 (a.val - b.val)⟩⟩

instance : Mul F64 := ⟨fun a b => ⟨round64 (a.val * b.val)⟩⟩

instance : LE F64 := ⟨fun a b => a.val ≤ b.val⟩

instance : DecidableRel fun a b : F64 => a ≤ b :=
  fun a b => inferInstanceAs (Decidable (a.val ≤ b.val))

/-- The `Math` functions on binary64 numbers.  `Math.sqrt` is the rounded
square root; `Math.cos` and `Math.sin`, which the language leaves to the
implementation, are parameters. -/
def f64Math (cos sin : F64 → F64) : MathLib F64 where
  sqrt := fun a => ⟨sqrt64 a.val⟩
  cos := cos
  sin := sin

end Binary64

/-! ## The real numbers -/

/-- The `Math` functions over the real numbers. -/
noncomputable def realMath : MathLib ℝ where
  sqrt := Real.sqrt
  cos := Real.cos
  sin := Real.sin

/-- A point of the program as a point of the Euclidean plane. -/
def Vec.toEuclidean (v : Vec ℝ) : EuclideanSpace ℝ (Fin 2) :=
  fun i => if i = 0 then v.x else v.y

/-! ## Theorems -/

theorem dist_toEuclidean (p q : Vec ℝ) :
    dist p.toEuclidean q.toEuclidean = Real.sqrt ((p.x - q.x) ^ 2 + (p.y - q.y) ^ 2) := by
  rw [EuclideanSpace.dist_eq]
  simp [Vec.toEuclidean, Fin.sum_univ_two, Real.dist_eq, sq_abs]

theorem dist_toEuclidean_mul (p q : Vec ℝ) :
    dist p.toEuclidean q.toEuclidean
      = Real.sqrt ((q.x - p.x) * (q.x - p.x) + (q.y - p.y) * (q.y - p.y)) := by
  rw [dist_toEuclidean]
  congr 1
  ring

/-- C1, amended: over exact real arithmetic, `circleClolosion c1 c2` is true
exactly when the Euclidean distance between the two centres is at most the sum
of the radii; in particular it is true when the circles are tangent. -/
theorem circleClolosion_iff_dist_le (c1 c2 : Body ℝ) :
    (circleClolosion realMath c1 c2 = true
        ↔ dist c1.position.toEuclidean c2.position.toEuclidean ≤ c1.radius + c2.radius)
      ∧ (dist c1.position.toEuclidean c2.position.toEuclidean = c1.radius + c2.radius
          → circleClolosion realMath c1 c2 = true) := by
  have h : circleClolosion realMath c1 c2 = true
      ↔ dist c1.position.toEuclidean c2.position.toEuclidean ≤ c1.radius + c2.radius := by
    rw [dist_toEuclidean_mul]
    simp [circleClolosion, realMath]
  exact ⟨h, fun e => h.mpr e.le⟩


/-- C1 amended, at a concrete input: the circles of radius 2 at (0,0) and of
radius 3 at (3,4) are tangent (distance 5), and `circleClolosion` is true on
them. -/
theorem circleClolosion_iff_dist_le_witness :
    circleClolosion realMath
      { position := { x := 0, y := 0 }, velocity := { x := 0, y := 0 }, radius := 2 }
      { position := { x := 3, y := 4 }, velocity := { x := 0, y := 0 }, radius := 3 } = true :=
  (circleClolosion_iff_dist_le _ _).2 (by
    rw [dist_toEuclidean]
    have h : ((0 : ℝ) - 3) ^ 2 + (0 - 4) ^ 2 = 5 ^ 2 := by norm_num
    simp only [h]
    rw [Real.sqrt_sq (by norm_num)]
    norm_num)

theorem roundHalfEven_of_close (q : ℚ) (n : ℤ) (h : |q - n| < 1 / 2) : roundHalfEven q = n := by
  rw [abs_lt] at h
  unfold roundHalfEven
  rcases le_or_lt (n : ℚ) q with hq | hq
  · have hf : ⌊q⌋ = n := Int.floor_eq_iff.mpr ⟨hq, by linarith⟩
    rw [hf, if_pos (by linarith)]
  · have hf : ⌊q⌋ = n - 1 :=
      Int.floor_eq_iff.mpr ⟨by push_cast; linarith, by push_cast; linarith⟩
    rw [hf, if_neg (by push_cast; linarith), if_pos (by push_cast; linarith)]
    ring

theorem log_two_eq (q : ℚ) (e : ℤ) (hlo : 2 ^ e ≤ q) (hhi : q < 2 ^ (e + 1)) :
    Int.log 2 q = e := by
  have hpos : 0 < q := lt_of_lt_of_le (by positivity) hlo
  apply le_antisymm
  · have h := (Int.lt_zpow_iff_log_lt (b := 2) (by norm_num) hpos).mp (by exact_mod_cast hhi)
    omega
  · exact (Int.zpow_le_iff_le_log (b := 2) (by norm_num) hpos).mp (by exact_mod_cast hlo)

theorem round64_eq (q : ℚ) (e n : ℤ) (hlo : 2 ^ e ≤ |q|) (hhi : |q| < 2 ^ (e + 1))
    (hn : |q / 2 ^ (e - 52) - n| < 1 / 2) : round64 q = n * 2 ^ (e - 52) := by
  have hpos : 0 < |q| := lt_of_lt_of_le (by positivity) hlo
  have hq : q ≠ 0 := abs_pos.mp hpos
  rw [round64, if_neg hq, log_two_eq _ e hlo hhi, roundHalfEven_of_close _ n hn]

theorem round64_15 : round64 15 = 15 := by
  rw [round64_eq _ 3 (15 * 2 ^ 49) (by norm_num [abs_of_pos]) (by norm_num [abs_of_pos])
    (by norm_num [abs_of_pos])]
  norm_num

theorem round64_225 : round64 225 = 225 := by
  rw [round64_eq _ 7 (225 * 2 ^ 45) (by norm_num [abs_of_pos]) (by norm_num [abs_of_pos])
    (by norm_num [abs_of_pos])]
  norm_num

theorem sqrt64_225 : sqrt64 225 = 15 := by
  have hlog : Int.log 2 (225 : ℚ) = 7 := log_two_eq _ 7 (by norm_num) (by norm_num)
  have hk : (55 : ℤ) - 7 / 2 = 52 := by norm_num
  have hfloor : ⌊(225 : ℚ) * 4 ^ (52 : ℤ)⌋₊ = (15 * 2 ^ 52) * (15 * 2 ^ 52) := by
    have h : (225 : ℚ) * 4 ^ (52 : ℤ) = (((15 * 2 ^ 52) * (15 * 2 ^ 52) : ℕ) : ℚ) := by
      norm_num
    rw [h, Nat.floor_natCast]
  have hexact : (((15 * 2 ^ 52 : ℕ) : ℚ)) * ((15 * 2 ^ 52 : ℕ) : ℚ) = 225 * 4 ^ (52 : ℤ) := by
    norm_num
  rw [sqrt64, if_neg (by norm_num)]
  simp only [hlog, hk, hfloor, Nat.sqrt_eq, hexact, if_true]
  have hval : (((15 * 2 ^ 52 : ℕ) : ℚ)) / 2 ^ (52 : ℤ) = 15 := by norm_num
  rw [hval, round64_15]

theorem F64.sub_val (a b : F64) : (a - b).val = round64 (a.val - b.val) := rfl

theorem F64.add_val (a b : F64) : (a + b).val = round64 (a.val + b.val) := rfl

theorem F64.mul_val (a b : F64) : (a * b).val = round64 (a.val * b.val) := rfl

theorem F64.le_iff (a b : F64) : a ≤ b ↔ a.val ≤ b.val := Iff.rfl

/-- C1 fails as stated on binary64 numbers: for the asteroid of radius 10 at
(100,300) and the projectile of radius 5 at (115, 300 + 2⁻²⁶), all of them
binary64 values, the square 2⁻⁵² of the y difference is lost when it is added
to 225, the rounded square root is 15 and `circleClolosion` is true, while the
distance of the centres, √(225 + 2⁻⁵²), is more than 10 + 5. -/
theorem circleClolosion_rounding_counterexample :
    round64 (300 + 2 ^ (-26 : ℤ)) = 300 + 2 ^ (-26 : ℤ)
    ∧ (∀ cos sin : F64 → F64,
        circleClolosion (f64Math cos sin)
          { position := ⟨⟨100⟩, ⟨300⟩⟩, velocity := ⟨⟨1⟩, ⟨0⟩⟩, radius := ⟨10⟩ }
          { position := ⟨⟨115⟩, ⟨300 + 2 ^ (-26 : ℤ)⟩⟩, velocity := ⟨⟨5⟩, ⟨0⟩⟩,
            radius := ⟨5⟩ } = true)
    ∧ ¬ (dist (⟨100, 300⟩ : Vec ℝ).toEuclidean
            (⟨115, 300 + 2 ^ (-26 : ℤ)⟩ : Vec ℝ).toEuclidean ≤ 10 + 5) := by
  refine ⟨?_, fun cos sin => ?_, ?_⟩
  · rw [round64_eq _ 8 (300 * 2 ^ 44 + 2 ^ 18) (by norm_num [abs_of_pos])
      (by norm_num [abs_of_pos]) (by norm_num [abs_of_pos])]
    norm_num
  · have hx : round64 (115 - 100) = 15 := by norm_num [round64_15]
    have hy : round64 (300 + 2 ^ (-26 : ℤ) - 300) = 2 ^ (-26 : ℤ) := by
      rw [round64_eq _ (-26) (2 ^ 52) (by norm_num [abs_of_pos]) (by norm_num [abs_of_pos])
        (by norm_num [abs_of_pos])]
      norm_num
    have hxx : round64 (15 * 15) = 225 := by norm_num [round64_225]
    have hyy : round64 (2 ^ (-26 : ℤ) * 2 ^ (-26 : ℤ)) = 2 ^ (-52 : ℤ) := by
      rw [round64_eq _ (-52) (2 ^ 52) (by norm_num [abs_of_pos]) (by norm_num [abs_of_pos])
        (by norm_num [abs_of_pos])]
      norm_num
    have hsum : round64 (225 + 2 ^ (-52 : ℤ)) = 225 := by
      rw [round64_eq _ 7 (225 * 2 ^ 45) (by norm_num [abs_of_pos]) (by norm_num [abs_of_pos])
        (by norm_num [abs_of_pos])]
      norm_num
    have hr : round64 (10 + 5) = 15 := by norm_num [round64_15]
    simp only [circleClolosion, f64Math, decide_eq_true_eq, F64.le_iff, F64.add_val,
      F64.mul_val, F64.sub_val, hx, hy, hxx, hyy, hsum, sqrt64_225, hr, le_refl]
  · rw [dist_toEuclidean, not_le, Real.lt_sqrt (by norm_num)]
    norm_num

theorem closestPoint_mem_box {α : Type} [LinearOrderedField α] (M : MathLib α) (circle : Body α)
    (start end_ : Vec α) :
    (min start.x end_.x ≤ (closestPoint M circle start end_).x ∧
      (closestPoint M circle start end_).x ≤ max start.x end_.x) ∧
    (min start.y end_.y ≤ (closestPoint M circle start end_).y ∧
      (closestPoint M circle start end_).y ≤ max start.y end_.y) := by
  unfold closestPoint
  by_cases h : isPointOnLineSegment (projection M circle start end_).x
      (projection M circle start end_).y start end_ = true
  · simp only [h, Bool.not_true, Bool.false_eq_true, if_false]
    simp only [isPointOnLineSegment, Bool.and_eq_true, decide_eq_true_eq, ge_iff_le] at h
    exact ⟨⟨h.1.1.1, h.1.1.2⟩, ⟨h.1.2, h.2⟩⟩
  · simp only [Bool.not_eq_true] at h
    simp only [h, Bool.not_false, if_true]
    refine ⟨⟨?_, ?_⟩, ⟨?_, ?_⟩⟩ <;> split_ifs <;> simp

theorem dist_le_of_mem_box (q s e : Vec ℝ)
    (hx : min s.x e.x ≤ q.x ∧ q.x ≤ max s.x e.x) (hy : min s.y e.y ≤ q.y ∧ q.y ≤ max s.y e.y) :
    dist q.toEuclidean s.toEuclidean ≤ dist s.toEuclidean e.toEuclidean := by
  rw [dist_toEuclidean, dist_toEuclidean]
  apply Real.sqrt_le_sqrt
  have h1 : (q.x - s.x) ^ 2 ≤ (s.x - e.x) ^ 2 := by
    rcases le_total s.x e.x with h | h
    · rw [min_eq_left h, max_eq_right h] at hx; nlinarith [hx.1, hx.2]
    · rw [min_eq_right h, max_eq_left h] at hx; nlinarith [hx.1, hx.2]
  have h2 : (q.y - s.y) ^ 2 ≤ (s.y - e.y) ^ 2 := by
    rcases le_total s.y e.y with h | h
    · rw [min_eq_left h, max_eq_right h] at hy; nlinarith [hy.1, hy.2]
    · rw [min_eq_right h, max_eq_left h] at hy; nlinarith [hy.1, hy.2]
  exact add_le_add h1 h2

theorem edgeCollision_iff_dist_le (circle : Body ℝ) (start end_ : Vec ℝ) :
    edgeCollision realMath circle start end_ = true
      ↔ dist circle.position.toEuclidean (closestPoint realMath circle start end_).toEuclidean
          ≤ circle.radius := by
  rw [dist_toEuclidean_mul]
  simp [edgeCollision, realMath]

theorem circleTriangleCollision_eq {α : Type} [LinearOrderedField α] (M : MathLib α)
    (circle : Body α) (triangle : Triangle α) :
    circleTriangleCollision M circle triangle
      = (edgeCollision M circle (triangle 0) (triangle 1) ||
          (edgeCollision M circle (triangle 1) (triangle 2) ||
            edgeCollision M circle (triangle 2) (triangle 0))) := by
  simp [circleTriangleCollision, List.finRange, List.pmap, List.range, List.range.loop]


theorem projection_at_start {α : Type} [LinearOrderedField α] (M : MathLib α) (circle : Body α)
    (start end_ : Vec α) (h : circle.position = start) :
    projection M circle start end_ = start := by
  simp [projection, h]

theorem isPointOnLineSegment_start {α : Type} [LinearOrderedField α] (start end_ : Vec α) :
    isPointOnLineSegment start.x start.y start end_ = true := by
  simp [isPointOnLineSegment]

theorem edgeCollision_at_start (circle : Body ℝ) (start end_ : Vec ℝ)
    (h : circle.position = start) (hr : 0 ≤ circle.radius) :
    edgeCollision realMath circle start end_ = true := by
  have hc : closestPoint realMath circle start end_ = start := by
    simp [closestPoint, projection_at_start realMath circle start end_ h,
      isPointOnLineSegment_start]
  rw [edgeCollision_iff_dist_le, hc, h, dist_self]
  exact hr

/-- C2: for a triangle with pairwise distinct vertices, a circle of positive
radius whose centre is the vertex `triangle k` collides with the triangle. -/
theorem circleTriangleCollision_centre_on_vertex (triangle : Triangle ℝ)
    (_hdistinct : triangle 0 ≠ triangle 1 ∧ triangle 1 ≠ triangle 2 ∧ triangle 2 ≠ triangle 0)
    (k : Fin 3) (velocity : Vec ℝ) (r : ℝ) (hr : 0 < r) :
    circleTriangleCollision realMath
      { position := triangle k, velocity := velocity, radius := r } triangle = true := by
  have h : edgeCollision realMath
      { position := triangle k, velocity := velocity, radius := r }
      (triangle k) (triangle (k + 1)) = true :=
    edgeCollision_at_start _ _ _ rfl hr.le
  rw [circleTriangleCollision, List.any_eq_true]
  exact ⟨k, List.mem_finRange k, h⟩


/-- C2, at a concrete input: the triangle (0,0), (3,0), (0,4) and the circle of
radius 1 centred at its vertex (3,0). -/
theorem circleTriangleCollision_centre_on_vertex_witness :
    circleTriangleCollision realMath
      { position := (![⟨0, 0⟩, ⟨3, 0⟩, ⟨0, 4⟩] : Triangle ℝ) 1,
        velocity := { x := 0, y := 0 }, radius := 1 }
      ![⟨0, 0⟩, ⟨3, 0⟩, ⟨0, 4⟩] = true :=
  circleTriangleCollision_centre_on_vertex ![⟨0, 0⟩, ⟨3, 0⟩, ⟨0, 4⟩]
    (by simp) 1 { x := 0, y := 0 } 1 (by norm_num)

theorem edgeCollision_far (circle : Body ℝ) (start end_ : Vec ℝ) (bound : ℝ)
    (hlen : dist start.toEuclidean end_.toEuclidean ≤ bound)
    (hfar : bound + circle.radius < dist circle.position.toEuclidean start.toEuclidean) :
    edgeCollision realMath circle start end_ = false := by
  rw [← Bool.not_eq_true, edgeCollision_iff_dist_le, not_le]
  have hbox := closestPoint_mem_box realMath circle start end_
  have h1 := dist_le_of_mem_box (closestPoint realMath circle start end_) start end_
    hbox.1 hbox.2
  have h2 := dist_triangle circle.position.toEuclidean
    (closestPoint realMath circle start end_).toEuclidean start.toEuclidean
  linarith

/-- C3: for a triangle with pairwise distinct vertices and a circle of radius
`r ≥ 0`, if the distance from the centre to every vertex exceeds the longest
edge length plus `r`, then `circleTriangleCollision` is false. -/
theorem circleTriangleCollision_far (triangle : Triangle ℝ)
    (_hdistinct : triangle 0 ≠ triangle 1 ∧ triangle 1 ≠ triangle 2 ∧ triangle 2 ≠ triangle 0)
    (circle : Body ℝ) (_hr : 0 ≤ circle.radius)
    (hfar : ∀ k : Fin 3,
      max (max (dist (triangle 0).toEuclidean (triangle 1).toEuclidean)
               (dist (triangle 1).toEuclidean (triangle 2).toEuclidean))
          (dist (triangle 2).toEuclidean (triangle 0).toEuclidean) + circle.radius
        < dist circle.position.toEuclidean (triangle k).toEuclidean) :
    circleTriangleCollision realMath circle triangle = false := by
  rw [circleTriangleCollision_eq]
  rw [edgeCollision_far circle (triangle 0) (triangle 1) _
        (le_max_of_le_left (le_max_left _ _)) (hfar 0),
      edgeCollision_far circle (triangle 1) (triangle 2) _
        (le_max_of_le_left (le_max_right _ _)) (hfar 1),
      edgeCollision_far circle (triangle 2) (triangle 0) _
        (le_max_right _ _) (hfar 2)]
  rfl


/-- C3, at a concrete input: the triangle (0,0), (3,0), (0,4), whose longest
edge has length 5, and the circle of radius 1 centred at (0,-20). -/
theorem circleTriangleCollision_far_witness :
    circleTriangleCollision realMath
      { position := { x := 0, y := -20 }, velocity := { x := 0, y := 0 }, radius := 1 }
      ![⟨0, 0⟩, ⟨3, 0⟩, ⟨0, 4⟩] = false :=
  circleTriangleCollision_far ![⟨0, 0⟩, ⟨3, 0⟩, ⟨0, 4⟩] (by simp)
    { position := { x := 0, y := -20 }, velocity := { x := 0, y := 0 }, radius := 1 }
    (by norm_num)
    (by
      intro k
      have hmax : max (max (dist (⟨0, 0⟩ : Vec ℝ).toEuclidean (⟨3, 0⟩ : Vec ℝ).toEuclidean)
          (dist (⟨3, 0⟩ : Vec ℝ).toEuclidean (⟨0, 4⟩ : Vec ℝ).toEuclidean))
          (dist (⟨0, 4⟩ : Vec ℝ).toEuclidean (⟨0, 0⟩ : Vec ℝ).toEuclidean) ≤ 5 := by
        simp only [dist_toEuclidean]
        refine max_le (max_le ?_ ?_) ?_ <;>
          (rw [Real.sqrt_le_left (by norm_num)]; norm_num)
      have hk : (6 : ℝ) < dist (⟨0, -20⟩ : Vec ℝ).toEuclidean
          ((![⟨0, 0⟩, ⟨3, 0⟩, ⟨0, 4⟩] : Triangle ℝ) k).toEuclidean := by
        rw [dist_toEuclidean, Real.lt_sqrt (by norm_num)]
        fin_cases k <;> norm_num
      simp only [Matrix.cons_val_zero, Matrix.cons_val_one, Matrix.head_cons,
        Matrix.cons_val_two, Matrix.tail_cons] at hmax ⊢
      linarith)


theorem projection_real (circle : Body ℝ) (start end_ : Vec ℝ) :
    projection realMath circle start end_ =
      { x := start.x + ((circle.position.x - start.x) * (end_.x - start.x)
              + (circle.position.y - start.y) * (end_.y - start.y))
            / ((end_.x - start.x) * (end_.x - start.x) + (end_.y - start.y) * (end_.y - start.y))
            * (end_.x - start.x),
        y := start.y + ((circle.position.x - start.x) * (end_.x - start.x)
              + (circle.position.y - start.y) * (end_.y - start.y))
            / ((end_.x - start.x) * (end_.x - start.x) + (end_.y - start.y) * (end_.y - start.y))
            * (end_.y - start.y) } := by
  have h : 0 ≤ (end_.x - start.x) * (end_.x - start.x) + (end_.y - start.y) * (end_.y - start.y) :=
    add_nonneg (mul_self_nonneg _) (mul_self_nonneg _)
  simp only [projection, realMath, Real.sq_sqrt h]

theorem sqrt_mul_self_add_le_iff (a b r : ℝ) (hr : 0 ≤ r) :
    Real.sqrt (a * a + b * b) ≤ r ↔ a * a + b * b ≤ r * r := by
  rw [Real.sqrt_le_left hr, sq]

theorem edgeCollision_real (circle : Body ℝ) (start end_ : Vec ℝ) (hr : 0 ≤ circle.radius) :
    edgeCollision realMath circle start end_ =
      decide (((closestPoint realMath circle start end_).x - circle.position.x)
            * ((closestPoint realMath circle start end_).x - circle.position.x)
          + ((closestPoint realMath circle start end_).y - circle.position.y)
            * ((closestPoint realMath circle start end_).y - circle.position.y)
          ≤ circle.radius * circle.radius) := by
  simp only [edgeCollision, realMath, sqrt_mul_self_add_le_iff _ _ _ hr]

theorem edgeCollisionSpec_real (circle : Body ℝ) (start end_ : Vec ℝ) (hr : 0 ≤ circle.radius) :
    edgeCollisionSpec realMath circle start end_ =
      decide (((closestPointSpec realMath circle start end_).x - circle.position.x)
            * ((closestPointSpec realMath circle start end_).x - circle.position.x)
          + ((closestPointSpec realMath circle start end_).y - circle.position.y)
            * ((closestPointSpec realMath circle start end_).y - circle.position.y)
          ≤ circle.radius * circle.radius) := by
  simp only [edgeCollisionSpec, realMath, sqrt_mul_self_add_le_iff _ _ _ hr]

theorem circleTriangleCollisionSpec_eq {α : Type} [LinearOrderedField α] (M : MathLib α)
    (circle : Body α) (triangle : Triangle α) :
    circleTriangleCollisionSpec M circle triangle
      = (edgeCollisionSpec M circle (triangle 0) (triangle 1) ||
          (edgeCollisionSpec M circle (triangle 1) (triangle 2) ||
            edgeCollisionSpec M circle (triangle 2) (triangle 0))) := by
  simp [circleTriangleCollisionSpec, List.finRange, List.pmap, List.range, List.range.loop]

/-- C4 at the failing input: for the triangle of the player at (400,300) with
rotation 0 and the circle of radius 45 centred at (396,338), the projection of
the centre on the edge from (430,300) to (390,310) is (6614/17, 5274/17),
outside the bounding box and with x less than 430; the compared point is
(430,310), which is neither vertex of the edge, where the x-only clamp gives
the start vertex (430,300); `circleTriangleCollision` is true and the x-only
reference is false. -/
theorem closestPoint_mixed_corner :
    Player.getVertices realMath
        { position := ⟨400, 300⟩, velocity := ⟨0, 0⟩, rotation := 0 }
      = ![⟨430, 300⟩, ⟨390, 310⟩, ⟨390, 290⟩]
    ∧ projection realMath
        { position := ⟨396, 338⟩, velocity := ⟨1, 0⟩, radius := 45 }
        ⟨430, 300⟩ ⟨390, 310⟩ = ⟨6614 / 17, 5274 / 17⟩
    ∧ isPointOnLineSegment (6614 / 17 : ℝ) (5274 / 17) ⟨430, 300⟩ ⟨390, 310⟩ = false
    ∧ closestPoint realMath
        { position := ⟨396, 338⟩, velocity := ⟨1, 0⟩, radius := 45 }
        ⟨430, 300⟩ ⟨390, 310⟩ = ⟨430, 310⟩
    ∧ closestPointSpec realMath
        { position := ⟨396, 338⟩, velocity := ⟨1, 0⟩, radius := 45 }
        ⟨430, 300⟩ ⟨390, 310⟩ = ⟨430, 300⟩
    ∧ circleTriangleCollision realMath
        { position := ⟨396, 338⟩, velocity := ⟨1, 0⟩, radius := 45 }
        ![⟨430, 300⟩, ⟨390, 310⟩, ⟨390, 290⟩] = true
    ∧ circleTriangleCollisionSpec realMath
        { position := ⟨396, 338⟩, velocity := ⟨1, 0⟩, radius := 45 }
        ![⟨430, 300⟩, ⟨390, 310⟩, ⟨390, 290⟩] = false := by
  have hr : ∀ p w : Vec ℝ, (0 : ℝ) ≤ (Body.mk p w 45 : Body ℝ).radius :=
    fun _ _ => by norm_num
  refine ⟨?_, ?_, ?_, ?_, ?_, ?_, ?_⟩
  · simp only [Player.getVertices, realMath, Real.cos_zero, Real.sin_zero]
    norm_num
  · rw [projection_real]; norm_num
  · norm_num [isPointOnLineSegment]
  · rw [closestPoint, projection_real]; norm_num [isPointOnLineSegment]
  · rw [closestPointSpec, projection_real]; norm_num [isPointOnLineSegment]
  · rw [circleTriangleCollision_eq]
    simp only [edgeCollision_real _ _ _ (hr _ _), closestPoint, projection_real]
    norm_num [isPointOnLineSegment]
  · rw [circleTriangleCollisionSpec_eq]
    simp only [edgeCollisionSpec_real _ _ _ (hr _ _), closestPointSpec, projection_real]
    norm_num [isPointOnLineSegment]

/-- C5 fails as stated: at position (0,0) and rotation 0 the triple returned by
`getVertices` is not (30,0), (-10,-10), (-10,10); its entry at index 1 is
(-10,10). -/
theorem getVertices_rotation_zero_counterexample :
    Player.getVertices realMath
        { position := { x := 0, y := 0 }, velocity := { x := 0, y := 0 }, rotation := 0 }
      ≠ ![⟨0 + 30, 0⟩, ⟨0 - 10, 0 - 10⟩, ⟨0 - 10, 0 + 10⟩]
    ∧ Player.getVertices realMath
        { position := { x := 0, y := 0 }, velocity := { x := 0, y := 0 }, rotation := 0 } 1
      = ⟨-10, 10⟩ := by
  have h1 : Player.getVertices realMath
        { position := { x := 0, y := 0 }, velocity := { x := 0, y := 0 }, rotation := 0 } 1
      = ⟨-10, 10⟩ := by
    simp [Player.getVertices, realMath]
  refine ⟨fun h => ?_, h1⟩
  have h2 := congrFun h 1
  rw [h1] at h2
  simp only [Matrix.cons_val_one, Matrix.head_cons, Vec.mk.injEq] at h2
  norm_num at h2

/-- C5, amended: with rotation 0, `getVertices` returns, in this order, the
points (x+30, y), (x-10, y+10), (x-10, y-10). -/
theorem getVertices_rotation_zero (position velocity : Vec ℝ) :
    Player.getVertices realMath { position := position, velocity := velocity, rotation := 0 }
      = ![⟨position.x + 30, position.y⟩, ⟨position.x - 10, position.y + 10⟩,
          ⟨position.x - 10, position.y - 10⟩] := by
  simp only [Player.getVertices, realMath, Real.cos_zero, Real.sin_zero]
  simp [sub_eq_add_neg]

theorem getVertices_sq_dist (p : Player ℝ) :
    ((p.getVertices realMath 1).x - (p.getVertices realMath 0).x)
          * ((p.getVertices realMath 1).x - (p.getVertices realMath 0).x)
        + ((p.getVertices realMath 1).y - (p.getVertices realMath 0).y)
          * ((p.getVertices realMath 1).y - (p.getVertices realMath 0).y) = 1700
    ∧ ((p.getVertices realMath 2).x - (p.getVertices realMath 1).x)
          * ((p.getVertices realMath 2).x - (p.getVertices realMath 1).x)
        + ((p.getVertices realMath 2).y - (p.getVertices realMath 1).y)
          * ((p.getVertices realMath 2).y - (p.getVertices realMath 1).y) = 400
    ∧ ((p.getVertices realMath 0).x - (p.getVertices realMath 2).x)
          * ((p.getVertices realMath 0).x - (p.getVertices realMath 2).x)
        + ((p.getVertices realMath 0).y - (p.getVertices realMath 2).y)
          * ((p.getVertices realMath 0).y - (p.getVertices realMath 2).y) = 1700 := by
  have h := Real.cos_sq_add_sin_sq p.rotation
  simp only [Player.getVertices, realMath, Matrix.cons_val_zero, Matrix.cons_val_one,
    Matrix.head_cons, Matrix.cons_val_two, Matrix.tail_cons]
  refine ⟨?_, ?_, ?_⟩
  · linear_combination 1700 * h
  · linear_combination 400 * h
  · linear_combination 1700 * h

/-- C6: for every position and rotation of the player, the pairwise distances
of the three points of `getVertices` are √1700, 20 and √1700, the points are
pairwise distinct, and at each of the three edges of
`circleTriangleCollision` the edge length and its square, the divisor of the
projection, are non-zero. -/
theorem getVertices_distinct (p : Player ℝ) :
    (dist (p.getVertices realMath 0).toEuclidean (p.getVertices realMath 1).toEuclidean
        = Real.sqrt 1700
      ∧ dist (p.getVertices realMath 1).toEuclidean (p.getVertices realMath 2).toEuclidean = 20
      ∧ dist (p.getVertices realMath 2).toEuclidean (p.getVertices realMath 0).toEuclidean
        = Real.sqrt 1700)
    ∧ (p.getVertices realMath 0 ≠ p.getVertices realMath 1
      ∧ p.getVertices realMath 1 ≠ p.getVertices realMath 2
      ∧ p.getVertices realMath 2 ≠ p.getVertices realMath 0)
    ∧ ∀ i : Fin 3,
        realMath.sqrt
            (((p.getVertices realMath (i + 1)).x - (p.getVertices realMath i).x)
                * ((p.getVertices realMath (i + 1)).x - (p.getVertices realMath i).x)
              + ((p.getVertices realMath (i + 1)).y - (p.getVertices realMath i).y)
                * ((p.getVertices realMath (i + 1)).y - (p.getVertices realMath i).y)) ≠ 0
        ∧ realMath.sqrt
            (((p.getVertices realMath (i + 1)).x - (p.getVertices realMath i).x)
                * ((p.getVertices realMath (i + 1)).x - (p.getVertices realMath i).x)
              + ((p.getVertices realMath (i + 1)).y - (p.getVertices realMath i).y)
                * ((p.getVertices realMath (i + 1)).y - (p.getVertices realMath i).y)) ^ 2 ≠ 0 := by
  obtain ⟨h01, h12, h20⟩ := getVertices_sq_dist p
  have hd01 : dist (p.getVertices realMath 0).toEuclidean (p.getVertices realMath 1).toEuclidean
      = Real.sqrt 1700 := by rw [dist_toEuclidean_mul, h01]
  have hd12 : dist (p.getVertices realMath 1).toEuclidean (p.getVertices realMath 2).toEuclidean
      = 20 := by
    rw [dist_toEuclidean_mul, h12]
    have h : (400 : ℝ) = 20 ^ 2 := by norm_num
    rw [h, Real.sqrt_sq (by norm_num)]
  have hd20 : dist (p.getVertices realMath 2).toEuclidean (p.getVertices realMath 0).toEuclidean
      = Real.sqrt 1700 := by rw [dist_toEuclidean_mul, h20]
  have hpos : (0 : ℝ) < Real.sqrt 1700 := Real.sqrt_pos.mpr (by norm_num)
  refine ⟨⟨hd01, hd12, hd20⟩, ⟨?_, ?_, ?_⟩, ?_⟩
  · intro h; rw [h, dist_self] at hd01; linarith
  · intro h; rw [h, dist_self] at hd12; linarith
  · intro h; rw [h, dist_self] at hd20; linarith
  · intro i
    have hlen : realMath.sqrt
            (((p.getVertices realMath (i + 1)).x - (p.getVertices realMath i).x)
                * ((p.getVertices realMath (i + 1)).x - (p.getVertices realMath i).x)
              + ((p.getVertices realMath (i + 1)).y - (p.getVertices realMath i).y)
                * ((p.getVertices realMath (i + 1)).y - (p.getVertices realMath i).y)) ≠ 0 := by
      fin_cases i
      · show Real.sqrt _ ≠ 0
        simp only [Fin.zero_eta, zero_add]
        rw [h01]; exact hpos.ne'
      · show Real.sqrt _ ≠ 0
        have e : ((1 : Fin 3) + 1) = 2 := rfl
        simp only [Fin.mk_one, e]
        rw [h12]; exact (Real.sqrt_pos.mpr (by norm_num)).ne'
      · show Real.sqrt _ ≠ 0
        have e : ((2 : Fin 3) + 1) = 0 := rfl
        simp only [Fin.reduceFinMk, e]
        rw [h20]; exact hpos.ne'
    exact ⟨hlen, pow_ne_zero 2 hlen⟩

theorem take_set_self {β : Type} (l : List β) (i : ℕ) (a : β) :
    (l.set i a).take i = l.take i := by
  induction l generalizing i with
  | nil => simp
  | cons b l ih =>
    cases i with
    | zero => simp
    | succ i => simp [ih]

theorem take_eraseIdx_self {β : Type} (l : List β) (i : ℕ) :
    (l.eraseIdx i).take i = l.take i := by
  induction l generalizing i with
  | nil => simp
  | cons b l ih =>
    cases i with
    | zero => simp
    | succ i => simp [ih]

theorem le_length_eraseIdx {β : Type} (l : List β) (i : ℕ) (h : i ≤ l.length) :
    i ≤ (l.eraseIdx i).length := by
  rw [List.length_eraseIdx]
  split_ifs <;> omega

theorem projectileLoop_isSome {α : Type} [LinearOrderedField α] (canvas : Canvas α) (i : ℕ)
    (projectiles : List (Body α)) (h : i ≤ projectiles.length) :
    ∃ ps, projectileLoop canvas i projectiles = some ps := by
  induction i generalizing projectiles with
  | zero => exact ⟨projectiles, rfl⟩
  | succ i ih =>
    have hi : i < projectiles.length := h
    have hset : i ≤ (projectiles.set i projectiles[i].update).length := by
      rw [List.length_set]; exact hi.le
    simp only [projectileLoop, List.getElem?_eq_getElem hi, Option.bind_eq_bind,
      Option.some_bind]
    split_ifs
    · exact ih _ (le_length_eraseIdx _ _ hset)
    · exact ih _ hset

theorem collisionLoop_spec {α : Type} [LinearOrderedField α] (M : MathLib α) (asteroid : Body α)
    (i j : ℕ) (asteroids projectiles : List (Body α)) (h : j ≤ projectiles.length) :
    ∃ as ps, collisionLoop M asteroid i j (asteroids, projectiles) = some (as, ps)
      ∧ as.take i = asteroids.take i ∧ (i ≤ asteroids.length → i ≤ as.length) := by
  induction j generalizing asteroids projectiles with
  | zero => exact ⟨asteroids, projectiles, rfl, rfl, id⟩
  | succ j ih =>
    have hj : j < projectiles.length := h
    simp only [collisionLoop, List.getElem?_eq_getElem hj, Option.bind_eq_bind,
      Option.some_bind]
    split_ifs
    · obtain ⟨as, ps, e, ht, hl⟩ := ih (asteroids.eraseIdx i) (projectiles.eraseIdx j)
        (le_length_eraseIdx _ _ hj.le)
      exact ⟨as, ps, e, ht.trans (take_eraseIdx_self _ _),
        fun hle => hl (le_length_eraseIdx _ _ hle)⟩
    · exact ih asteroids projectiles hj.le

theorem asteroidLoop_spec {α : Type} [LinearOrderedField α] (M : MathLib α) (canvas : Canvas α)
    (player : Player α) (i : ℕ) (st : LoopState α) (h : i ≤ st.asteroids.length) :
    ∃ st', asteroidLoop M canvas player i st = some st'
      ∧ st'.gameOver = (st.gameOver ||
          (st.asteroids.take i).any fun a =>
            circleTriangleCollision M a.update (player.getVertices M)) := by
  induction i generalizing st with
  | zero => exact ⟨st, rfl, by simp⟩
  | succ i ih =>
    have hi : i < st.asteroids.length := h
    have hset : i ≤ (st.asteroids.set i st.asteroids[i].update).length := by
      rw [List.length_set]; exact hi.le
    obtain ⟨as, ps, e, ht, hl⟩ := collisionLoop_spec M st.asteroids[i].update i
      st.projectiles.length
      (if offScreen canvas st.asteroids[i].update then
        (st.asteroids.set i st.asteroids[i].update).eraseIdx i
       else st.asteroids.set i st.asteroids[i].update)
      st.projectiles le_rfl
    have ht2 : as.take i = st.asteroids.take i := by
      rw [ht]
      split_ifs
      · rw [take_eraseIdx_self, take_set_self]
      · rw [take_set_self]
    have hl2 : i ≤ as.length := by
      apply hl
      split_ifs
      · exact le_length_eraseIdx _ _ hset
      · exact hset
    obtain ⟨st', e', hg⟩ := ih
      { asteroids := as, projectiles := ps,
        gameOver := if circleTriangleCollision M st.asteroids[i].update (player.getVertices M)
          then true else st.gameOver } hl2
    refine ⟨st', ?_, ?_⟩
    · simp only [asteroidLoop, List.getElem?_eq_getElem hi, Option.bind_eq_bind,
        Option.some_bind, e]
      exact e'
    · rw [hg]
      simp only [ht2, List.take_succ, List.getElem?_eq_getElem hi, Option.toList_some,
        List.any_append, List.any_cons, List.any_nil, Bool.or_false]
      cases circleTriangleCollision M st.asteroids[i].update (player.getVertices M) <;>
        cases st.gameOver <;> simp

theorem animate_spec {α : Type} [LinearOrderedField α] (M : MathLib α) (canvas : Canvas α)
    (g : Game α) :
    ∃ ps as, animate M canvas g = some
      { player :=
          { position := g.player.update.position,
            velocity :=
              if g.keys.w then
                { x := M.cos g.player.rotation * SPEED, y := M.sin g.player.rotation * SPEED }
              else
                { x := g.player.velocity.x * FRICTION, y := g.player.velocity.y * FRICTION },
            rotation :=
              if g.keys.d then g.player.rotation + 0.06
              else if g.keys.a then g.player.rotation - 0.06
              else g.player.rotation },
        keys := g.keys,
        projectiles := ps,
        asteroids := as,
        gameOver := (g.gameOver ||
          g.asteroids.any fun a =>
            circleTriangleCollision M a.update (g.player.update.getVertices M)) } := by
  obtain ⟨ps, hps⟩ := projectileLoop_isSome canvas g.projectiles.length g.projectiles le_rfl
  obtain ⟨st, hst, hg⟩ := asteroidLoop_spec M canvas g.player.update g.asteroids.length
    { asteroids := g.asteroids, projectiles := ps, gameOver := g.gameOver } le_rfl
  refine ⟨st.projectiles, st.asteroids, ?_⟩
  simp only [List.take_length] at hg
  simp only [animate, hps, hst, Option.bind_eq_bind, Option.some_bind, hg]
  rfl

/-- C9: a frame that starts in the running state enters the game-over branch
exactly when some asteroid of the collection at the start of the frame, with
its position advanced by its velocity, collides with the triangle of the
player computed from the player's position advanced by the player's velocity
and from the rotation at the start of the frame. -/
theorem animate_gameOver_iff (canvas : Canvas ℝ) (g : Game ℝ) (hrun : g.gameOver = false) :
    ∃ g', animate realMath canvas g = some g'
      ∧ (g'.gameOver = true ↔
          ∃ a ∈ g.asteroids,
            circleTriangleCollision realMath
              { position := ⟨a.position.x + a.velocity.x, a.position.y + a.velocity.y⟩,
                velocity := a.velocity, radius := a.radius }
              (Player.getVertices realMath
                { position := ⟨g.player.position.x + g.player.velocity.x,
                                g.player.position.y + g.player.velocity.y⟩,
                  velocity := g.player.velocity, rotation := g.player.rotation }) = true) := by
  obtain ⟨ps, as, h⟩ := animate_spec realMath canvas g
  refine ⟨_, h, ?_⟩
  simp only [hrun, Bool.false_or, List.any_eq_true]
  rfl

theorem moving_collision :
    circleTriangleCollision realMath
        { position := ⟨432 + 1, 300 + 0⟩, velocity := ⟨1, 0⟩, radius := 1 / 5 }
        (Player.getVertices realMath
          { position := ⟨400 + 3, 300 + 0⟩, velocity := ⟨3, 0⟩, rotation := 0 }) = true
    ∧ circleTriangleCollision realMath
        { position := ⟨433, 300⟩, velocity := ⟨1, 0⟩, radius := 1 / 5 }
        (Player.getVertices realMath
          { position := ⟨400, 300⟩, velocity := ⟨3, 0⟩, rotation := 0 }) = false
    ∧ circleTriangleCollision realMath
        { position := ⟨432, 300⟩, velocity := ⟨1, 0⟩, radius := 1 / 5 }
        (Player.getVertices realMath
          { position := ⟨403, 300⟩, velocity := ⟨3, 0⟩, rotation := 0 }) = false := by
  have hr : ∀ p w : Vec ℝ, (0 : ℝ) ≤ (Body.mk p w (1 / 5) : Body ℝ).radius :=
    fun _ _ => by norm_num
  refine ⟨?_, ?_, ?_⟩ <;>
  · rw [circleTriangleCollision_eq]
    simp only [Player.getVertices, realMath, Real.cos_zero, Real.sin_zero,
      Matrix.cons_val_zero, Matrix.cons_val_one, Matrix.head_cons, Matrix.cons_val_two,
      Matrix.tail_cons]
    simp only [← realMath.eq_def, edgeCollision_real _ _ _ (hr _ _), closestPoint,
      projection_real]
    norm_num [isPointOnLineSegment]

/-- C9, at a concrete input: on a canvas of 800 by 600 the player at (400,300)
with velocity (3,0) and rotation 0 moves its tip to (433,300), and the asteroid
of radius 1/5 at (432,300) with velocity (1,0) moves to (433,300): the frame
enters the game-over branch.  Neither the moved asteroid with the player's
triangle before the move, nor the asteroid before its move with the moved
triangle, collide. -/
theorem animate_gameOver_iff_witness :
    (∃ g', animate realMath { width := 800, height := 600 }
        { player := { position := ⟨400, 300⟩, velocity := ⟨3, 0⟩, rotation := 0 },
          keys := { w := false, a := false, d := false },
          projectiles := [],
          asteroids := [{ position := ⟨432, 300⟩, velocity := ⟨1, 0⟩, radius := 1 / 5 }],
          gameOver := false } = some g'
      ∧ g'.gameOver = true)
    ∧ circleTriangleCollision realMath
        { position := ⟨433, 300⟩, velocity := ⟨1, 0⟩, radius := 1 / 5 }
        (Player.getVertices realMath
          { position := ⟨400, 300⟩, velocity := ⟨3, 0⟩, rotation := 0 }) = false
    ∧ circleTriangleCollision realMath
        { position := ⟨432, 300⟩, velocity := ⟨1, 0⟩, radius := 1 / 5 }
        (Player.getVertices realMath
          { position := ⟨403, 300⟩, velocity := ⟨3, 0⟩, rotation := 0 }) = false :=
  ⟨(animate_gameOver_iff { width := 800, height := 600 }
      { player := { position := ⟨400, 300⟩, velocity := ⟨3, 0⟩, rotation := 0 },
        keys := { w := false, a := false, d := false },
        projectiles := [],
        asteroids := [{ position := ⟨432, 300⟩, velocity := ⟨1, 0⟩, radius := 1 / 5 }],
        gameOver := false } rfl).imp fun _ h =>
      ⟨h.1, h.2.mpr ⟨_, List.mem_singleton.mpr rfl, moving_collision.1⟩⟩,
    moving_collision.2.1, moving_collision.2.2⟩

theorem sqrt_scale (a b c : ℝ) (hc : 0 ≤ c) :
    Real.sqrt ((a * c) ^ 2 + (b * c) ^ 2) = Real.sqrt (a ^ 2 + b ^ 2) * c := by
  have h : (a * c) ^ 2 + (b * c) ^ 2 = (a ^ 2 + b ^ 2) * c ^ 2 := by ring
  rw [h, Real.sqrt_mul (by positivity), Real.sqrt_sq hc]

/-- C7: after `n` consecutive frames with the forward key not pressed, each
component of the player's velocity is its initial value times `0.96 ^ n`, the
speed is the initial speed times `0.96 ^ n`, and a positive initial speed
stays positive. -/
theorem frames_friction (canvas : Canvas ℝ) (n : ℕ) (g : Game ℝ) (hw : g.keys.w = false) :
    ∃ g', frames realMath canvas n g = some g'
      ∧ g'.keys = g.keys
      ∧ g'.player.velocity.x = g.player.velocity.x * 0.96 ^ n
      ∧ g'.player.velocity.y = g.player.velocity.y * 0.96 ^ n
      ∧ Real.sqrt (g'.player.velocity.x ^ 2 + g'.player.velocity.y ^ 2)
          = Real.sqrt (g.player.velocity.x ^ 2 + g.player.velocity.y ^ 2) * 0.96 ^ n
      ∧ (0 < Real.sqrt (g.player.velocity.x ^ 2 + g.player.velocity.y ^ 2) →
          0 < Real.sqrt (g'.player.velocity.x ^ 2 + g'.player.velocity.y ^ 2)) := by
  have hcomp : ∀ (n : ℕ) (g : Game ℝ), g.keys.w = false →
      ∃ g', frames realMath canvas n g = some g' ∧ g'.keys = g.keys
        ∧ g'.player.velocity.x = g.player.velocity.x * 0.96 ^ n
        ∧ g'.player.velocity.y = g.player.velocity.y * 0.96 ^ n := by
    intro n
    induction n with
    | zero => intro g _; exact ⟨g, rfl, rfl, by simp, by simp⟩
    | succ n ih =>
      intro g hw
      obtain ⟨g1, h1, hk1, hx1, hy1⟩ : ∃ g1, animate realMath canvas g = some g1
          ∧ g1.keys = g.keys
          ∧ g1.player.velocity.x = g.player.velocity.x * 0.96
          ∧ g1.player.velocity.y = g.player.velocity.y * 0.96 := by
        obtain ⟨ps, as, h⟩ := animate_spec realMath canvas g
        simp only [hw, Bool.false_eq_true, if_false] at h
        exact ⟨_, h, rfl, rfl, rfl⟩
      obtain ⟨g', e, hk, hx, hy⟩ := ih g1 (by rw [hk1]; exact hw)
      refine ⟨g', ?_, hk.trans hk1, ?_, ?_⟩
      · simp only [frames, h1, Option.some_bind]; exact e
      · rw [hx, hx1]; ring
      · rw [hy, hy1]; ring
  obtain ⟨g', e, hk, hx, hy⟩ := hcomp n g hw
  have hs : Real.sqrt (g'.player.velocity.x ^ 2 + g'.player.velocity.y ^ 2)
      = Real.sqrt (g.player.velocity.x ^ 2 + g.player.velocity.y ^ 2) * 0.96 ^ n := by
    rw [hx, hy, sqrt_scale _ _ _ (by positivity)]
  refine ⟨g', e, hk, hx, hy, hs, fun hpos => ?_⟩
  rw [hs]
  exact mul_pos hpos (by positivity)

/-- C7, at a concrete input: two frames from the velocity (3,4). -/
theorem frames_friction_witness :
    ∃ g', frames realMath { width := 800, height := 600 } 2
        { player := { position := ⟨400, 300⟩, velocity := ⟨3, 4⟩, rotation := 0 },
          keys := { w := false, a := false, d := false },
          projectiles := [], asteroids := [], gameOver := false } = some g'
      ∧ g'.keys = { w := false, a := false, d := false }
      ∧ g'.player.velocity.x = 3 * 0.96 ^ 2
      ∧ g'.player.velocity.y = 4 * 0.96 ^ 2
      ∧ Real.sqrt (g'.player.velocity.x ^ 2 + g'.player.velocity.y ^ 2)
          = Real.sqrt ((3 : ℝ) ^ 2 + 4 ^ 2) * 0.96 ^ 2
      ∧ (0 < Real.sqrt ((3 : ℝ) ^ 2 + 4 ^ 2) →
          0 < Real.sqrt (g'.player.velocity.x ^ 2 + g'.player.velocity.y ^ 2)) :=
  frames_friction { width := 800, height := 600 } 2
    { player := { position := ⟨400, 300⟩, velocity := ⟨3, 4⟩, rotation := 0 },
      keys := { w := false, a := false, d := false },
      projectiles := [], asteroids := [], gameOver := false } rfl

/-- C8: with the three draws in [0,1) and a canvas of positive width and
height, the spawner builds an asteroid; its edge is the left, bottom, right or
top one as the index is 0, 1, 2 or 3; the centre is beyond that edge by the
radius, the velocity component along the normal of the edge points into the
screen and the other component is 0. -/
theorem spawn_containment (canvas : Canvas ℝ) (rand0 rand1 rand2 : ℝ)
    (_hW : 0 < canvas.width) (_hH : 0 < canvas.height)
    (h0 : 0 ≤ rand0 ∧ rand0 < 1) (_h1 : 0 ≤ rand1 ∧ rand1 < 1) (_h2 : 0 ≤ rand2 ∧ rand2 < 1) :
    ∃ a, spawn canvas rand0 rand1 rand2 = some a
      ∧ a.radius = 50 * rand1 + 10
      ∧ ((⌊rand0 * 4⌋ = 0 ∧ a.position.x ≤ -a.radius
            ∧ 0 < a.velocity.x ∧ a.velocity.y = 0)
        ∨ (⌊rand0 * 4⌋ = 1 ∧ canvas.height + a.radius ≤ a.position.y
            ∧ a.velocity.y < 0 ∧ a.velocity.x = 0)
        ∨ (⌊rand0 * 4⌋ = 2 ∧ canvas.width + a.radius ≤ a.position.x
            ∧ a.velocity.x < 0 ∧ a.velocity.y = 0)
        ∨ (⌊rand0 * 4⌋ = 3 ∧ a.position.y ≤ -a.radius
            ∧ 0 < a.velocity.y ∧ a.velocity.x = 0)) := by
  have hlo : (0 : ℤ) ≤ ⌊rand0 * 4⌋ := Int.floor_nonneg.mpr (by linarith [h0.1])
  have hhi : ⌊rand0 * 4⌋ < (4 : ℤ) := Int.floor_lt.mpr (by push_cast; linarith [h0.2])
  have hcases : ⌊rand0 * 4⌋ = 0 ∨ ⌊rand0 * 4⌋ = 1 ∨ ⌊rand0 * 4⌋ = 2 ∨ ⌊rand0 * 4⌋ = 3 := by
    omega
  rcases hcases with h | h | h | h
  · exact ⟨_, by simp only [spawn, h]; rfl, rfl, Or.inl ⟨h, by simp, by simp, rfl⟩⟩
  · exact ⟨_, by simp only [spawn, h]; rfl, rfl,
      Or.inr (Or.inl ⟨h, by simp, by simp, rfl⟩)⟩
  · exact ⟨_, by simp only [spawn, h]; rfl, rfl,
      Or.inr (Or.inr (Or.inl ⟨h, by simp, by simp, rfl⟩))⟩
  · exact ⟨_, by simp only [spawn, h]; rfl, rfl,
      Or.inr (Or.inr (Or.inr ⟨h, by simp, by simp, rfl⟩))⟩

/-- C8, at a concrete input: the draws 1/2, 1/2, 1/4 on a canvas of 800 by
600. -/
theorem spawn_containment_witness :
    ∃ a, spawn ({ width := 800, height := 600 } : Canvas ℝ) (1 / 2) (1 / 2) (1 / 4) = some a
      ∧ a.radius = 50 * (1 / 2) + 10
      ∧ ((⌊(1 / 2 : ℝ) * 4⌋ = 0 ∧ a.position.x ≤ -a.radius
            ∧ 0 < a.velocity.x ∧ a.velocity.y = 0)
        ∨ (⌊(1 / 2 : ℝ) * 4⌋ = 1 ∧ (600 : ℝ) + a.radius ≤ a.position.y
            ∧ a.velocity.y < 0 ∧ a.velocity.x = 0)
        ∨ (⌊(1 / 2 : ℝ) * 4⌋ = 2 ∧ (800 : ℝ) + a.radius ≤ a.position.x
            ∧ a.velocity.x < 0 ∧ a.velocity.y = 0)
        ∨ (⌊(1 / 2 : ℝ) * 4⌋ = 3 ∧ a.position.y ≤ -a.radius
            ∧ 0 < a.velocity.y ∧ a.velocity.x = 0)) :=
  spawn_containment { width := 800, height := 600 } (1 / 2) (1 / 2) (1 / 4)
    (by norm_num) (by norm_num) (by norm_num) (by norm_num) (by norm_num)

theorem tip_collision (v : Vec ℝ)
    (hv : v = ⟨0, 0⟩ ∨ v = ⟨1, 0⟩ ∨ v = ⟨-1, 0⟩ ∨ v = ⟨0, 1⟩ ∨ v = ⟨0, -1⟩) :
    circleTriangleCollision realMath
      (Body.update { position := ⟨430, 300⟩, velocity := v, radius := 1 })
      (Player.getVertices realMath
        (Player.update { position := ⟨400, 300⟩, velocity := ⟨0, 0⟩, rotation := 0 })) = true := by
  have hr : ∀ p w : Vec ℝ, (0 : ℝ) ≤ (Body.mk p w 1 : Body ℝ).radius := fun _ _ => zero_le_one
  rw [circleTriangleCollision_eq]
  simp only [Body.update, Player.update, Player.getVertices, realMath, Real.cos_zero,
    Real.sin_zero, Matrix.cons_val_zero, Matrix.cons_val_one, Matrix.head_cons,
    Matrix.cons_val_two, Matrix.tail_cons]
  rcases hv with h | h | h | h | h <;> subst h <;>
    simp only [← realMath.eq_def, edgeCollision_real _ _ _ (hr _ _), closestPoint,
      projection_real] <;>
    norm_num [isPointOnLineSegment]

/-- C10: with the player at (400,300), rotation 0 and velocity (0,0), no
projectiles, and one asteroid of radius 1 at (430,300) whose velocity is (0,0)
or one of the four spawner velocities, the next frame enters the game-over
branch. -/
theorem animate_tip_gameOver (canvas : Canvas ℝ) (keys : Keys) (v : Vec ℝ)
    (hv : v = ⟨0, 0⟩ ∨ v = ⟨1, 0⟩ ∨ v = ⟨-1, 0⟩ ∨ v = ⟨0, 1⟩ ∨ v = ⟨0, -1⟩) :
    ∃ g', animate realMath canvas
        { player := { position := ⟨400, 300⟩, velocity := ⟨0, 0⟩, rotation := 0 },
          keys := keys,
          projectiles := [],
          asteroids := [{ position := ⟨430, 300⟩, velocity := v, radius := 1 }],
          gameOver := false } = some g'
      ∧ g'.gameOver = true := by
  obtain ⟨ps, as, h⟩ := animate_spec realMath canvas
    { player := { position := ⟨400, 300⟩, velocity := ⟨0, 0⟩, rotation := 0 },
      keys := keys,
      projectiles := [],
      asteroids := [{ position := ⟨430, 300⟩, velocity := v, radius := 1 }],
      gameOver := false }
  refine ⟨_, h, ?_⟩
  simp only [Bool.false_or, List.any_cons, List.any_nil, Bool.or_false]
  exact tip_collision v hv

/-- C10, at a concrete input: the asteroid moves to the right, away from the
tip, and touches it at distance exactly 1. -/
theorem animate_tip_gameOver_witness :
    ∃ g', animate realMath { width := 800, height := 600 }
        { player := { position := ⟨400, 300⟩, velocity := ⟨0, 0⟩, rotation := 0 },
          keys := { w := false, a := false, d := false },
          projectiles := [],
          asteroids := [{ position := ⟨430, 300⟩, velocity := ⟨1, 0⟩, radius := 1 }],
          gameOver := false } = some g'
      ∧ g'.gameOver = true :=
  animate_tip_gameOver { width := 800, height := 600 } { w := false, a := false, d := false }
    ⟨1, 0⟩ (Or.inr (Or.inl rfl))

theorem drop_eraseIdx_self {β : Type} (l : List β) (i : ℕ) :
    (l.eraseIdx i).drop i = l.drop (i + 1) := by
  induction l generalizing i with
  | nil => simp
  | cons b l ih =>
    cases i with
    | zero => simp
    | succ i => simp [ih]

theorem drop_set_self {β : Type} (l : List β) (i : ℕ) (a : β) (h : i < l.length) :
    (l.set i a).drop i = a :: l.drop (i + 1) := by
  induction l generalizing i with
  | nil => simp at h
  | cons b l ih =>
    cases i with
    | zero => simp
    | succ i =>
      simp only [List.length_cons, Nat.add_lt_add_iff_right] at h
      simp [ih i h]

theorem take_succ_getElem {β : Type} (l : List β) (i : ℕ) (h : i < l.length) :
    l.take (i + 1) = l.take i ++ [l[i]] := by
  rw [List.take_succ, List.getElem?_eq_getElem h]
  rfl

theorem projectileLoop_eq {α : Type} [LinearOrderedField α] (canvas : Canvas α) (i : ℕ)
    (projectiles : List (Body α)) (h : i ≤ projectiles.length) :
    projectileLoop canvas i projectiles
      = some ((((projectiles.take i).map Body.update).filter fun p => !offScreen canvas p)
          ++ projectiles.drop i) := by
  induction i generalizing projectiles with
  | zero => simp [projectileLoop]
  | succ i ih =>
    have hi : i < projectiles.length := h
    have hset : i ≤ (projectiles.set i projectiles[i].update).length := by
      rw [List.length_set]; exact hi.le
    simp only [projectileLoop, List.getElem?_eq_getElem hi, Option.bind_eq_bind,
      Option.some_bind]
    rw [take_succ_getElem _ _ hi]
    by_cases hoff : offScreen canvas projectiles[i].update = true
    · rw [if_pos hoff, ih _ (le_length_eraseIdx _ _ hset), take_eraseIdx_self, take_set_self,
        drop_eraseIdx_self, List.drop_set_of_lt _ _ (Nat.lt_succ_self i)]
      simp only [List.map_append, List.map_cons, List.map_nil, List.filter_append,
        List.filter_cons, List.filter_nil, hoff, Bool.not_true, Bool.false_eq_true, if_false,
        List.append_nil]
    · rw [if_neg hoff, ih _ hset, take_set_self, drop_set_self _ _ _ hi]
      simp only [Bool.not_eq_true] at hoff
      simp only [List.map_append, List.map_cons, List.map_nil, List.filter_append,
        List.filter_cons, List.filter_nil, hoff, Bool.not_false, if_true,
        List.append_assoc, List.singleton_append]

theorem collisionLoop_eq {α : Type} [LinearOrderedField α] (M : MathLib α) (asteroid : Body α)
    (i j : ℕ) (asteroids projectiles : List (Body α)) (h : j ≤ projectiles.length) :
    collisionLoop M asteroid i j (asteroids, projectiles)
      = some
          (asteroids.take i ++ (asteroids.drop i).drop
              ((projectiles.take j).countP fun p => circleClolosion M asteroid p),
            ((projectiles.take j).filter fun p => !circleClolosion M asteroid p)
              ++ projectiles.drop j) := by
  induction j generalizing asteroids projectiles with
  | zero => simp [collisionLoop]
  | succ j ih =>
    have hj : j < projectiles.length := h
    simp only [collisionLoop, List.getElem?_eq_getElem hj, Option.bind_eq_bind,
      Option.some_bind]
    rw [take_succ_getElem _ _ hj]
    by_cases hhit : circleClolosion M asteroid projectiles[j] = true
    · rw [if_pos hhit, ih _ _ (le_length_eraseIdx _ _ hj.le), take_eraseIdx_self,
        take_eraseIdx_self, drop_eraseIdx_self, drop_eraseIdx_self]
      simp only [List.countP_append, List.countP_cons, List.countP_nil, hhit, if_true,
        List.filter_append, List.filter_cons, List.filter_nil, Bool.not_true,
        Bool.false_eq_true, if_false, List.append_nil, List.drop_drop, zero_add]
      rw [show ∀ c : ℕ, i + 1 + c = i + (c + 1) from fun c => by omega]
    · rw [if_neg hhit, ih _ _ hj.le]
      simp only [Bool.not_eq_true] at hhit
      simp only [List.countP_append, List.countP_cons, List.countP_nil, hhit,
        Bool.false_eq_true, if_false, List.filter_append, List.filter_cons, List.filter_nil,
        Bool.not_false, if_true, List.append_assoc, List.singleton_append, add_zero]
      rw [← List.drop_eq_getElem_cons hj]

theorem animate_eq_asteroidLoop {α : Type} [LinearOrderedField α] (M : MathLib α)
    (canvas : Canvas α) (g : Game α) :
    animate M canvas g
      = (asteroidLoop M canvas g.player.update g.asteroids.length
          { asteroids := g.asteroids,
            projectiles := (g.projectiles.map Body.update).filter fun p => !offScreen canvas p,
            gameOver := g.gameOver }).map fun st =>
          { player :=
              { position := g.player.update.position,
                velocity :=
                  if g.keys.w then
                    { x := M.cos g.player.rotation * SPEED,
                      y := M.sin g.player.rotation * SPEED }
                  else
                    { x := g.player.velocity.x * FRICTION,
                      y := g.player.velocity.y * FRICTION },
                rotation :=
                  if g.keys.d then g.player.rotation + 0.06
                  else if g.keys.a then g.player.rotation - 0.06
                  else g.player.rotation },
            keys := g.keys,
            projectiles := st.projectiles,
            asteroids := st.asteroids,
            gameOver := st.gameOver } := by
  have hp := projectileLoop_eq canvas g.projectiles.length g.projectiles le_rfl
  simp only [List.take_length, List.drop_length, List.append_nil] at hp
  simp only [animate, hp, Option.bind_eq_bind, Option.some_bind]
  cases asteroidLoop M canvas g.player.update g.asteroids.length
      { asteroids := g.asteroids,
        projectiles := (g.projectiles.map Body.update).filter fun p => !offScreen canvas p,
        gameOver := g.gameOver } with
  | none => rfl
  | some st => rfl

theorem asteroidLoop_clean {α : Type} [LinearOrderedField α] (M : MathLib α) (canvas : Canvas α)
    (player : Player α) (i : ℕ) (st : LoopState α) (h : i ≤ st.asteroids.length)
    (hclean : ∀ a ∈ st.asteroids.drop i, ∀ p ∈ st.projectiles, circleClolosion M a p = false) :
    ∃ st', asteroidLoop M canvas player i st = some st'
      ∧ (∀ a ∈ st'.asteroids, ∀ p ∈ st'.projectiles, circleClolosion M a p = false)
      ∧ List.Sublist st'.projectiles st.projectiles
      ∧ List.Sublist st'.asteroids
          ((st.asteroids.take i).map Body.update ++ st.asteroids.drop i) := by
  induction i generalizing st with
  | zero =>
    refine ⟨st, rfl, ?_, List.Sublist.refl _, ?_⟩
    · simpa using hclean
    · simp
  | succ i ih =>
    have hi : i < st.asteroids.length := h
    have hset : i ≤ (st.asteroids.set i st.asteroids[i].update).length := by
      rw [List.length_set]; exact hi.le
    obtain ⟨as1, has1, htake, hdrop, hlen⟩ : ∃ as1 : List (Body α),
        as1 = (if offScreen canvas st.asteroids[i].update then
            (st.asteroids.set i st.asteroids[i].update).eraseIdx i
          else st.asteroids.set i st.asteroids[i].update)
        ∧ as1.take i = st.asteroids.take i
        ∧ List.Sublist (as1.drop i) (st.asteroids[i].update :: st.asteroids.drop (i + 1))
        ∧ i ≤ as1.length := by
      refine ⟨_, rfl, ?_, ?_, ?_⟩
      · split_ifs
        · rw [take_eraseIdx_self, take_set_self]
        · rw [take_set_self]
      · split_ifs
        · rw [drop_eraseIdx_self, List.drop_set_of_lt _ _ (Nat.lt_succ_self i)]
          exact List.sublist_cons_self _ _
        · rw [drop_set_self _ _ _ hi]
      · split_ifs
        · exact le_length_eraseIdx _ _ hset
        · exact hset
    have hloop := collisionLoop_eq M st.asteroids[i].update i st.projectiles.length as1
      st.projectiles le_rfl
    simp only [List.take_length, List.drop_length, List.append_nil] at hloop
    obtain ⟨st', e', hc', hps', has'⟩ := ih
      { asteroids := as1.take i ++ (as1.drop i).drop
          (st.projectiles.countP fun p => circleClolosion M st.asteroids[i].update p),
        projectiles := st.projectiles.filter fun p => !circleClolosion M st.asteroids[i].update p,
        gameOver := if circleTriangleCollision M st.asteroids[i].update (player.getVertices M)
          then true else st.gameOver }
      (by
        simp only [List.length_append, List.length_take]
        omega)
      (by
        intro a ha p hp
        have hlt : (as1.take i).length = i := by
          rw [List.length_take]; omega
        rw [List.drop_append_of_le_length (by omega), List.drop_of_length_le (by omega),
          List.nil_append] at ha
        have ha2 := hdrop.subset (List.mem_of_mem_drop ha)
        rw [List.mem_filter] at hp
        rcases List.mem_cons.mp ha2 with rfl | hmem
        · simpa using hp.2
        · exact hclean a hmem p hp.1)
    refine ⟨st', ?_, hc', ?_, ?_⟩
    · simp only [asteroidLoop, List.getElem?_eq_getElem hi, Option.bind_eq_bind,
        Option.some_bind, ← has1, hloop]
      exact e'
    · exact hps'.trans (List.filter_sublist _)
    · refine has'.trans ?_
      have hlt : (as1.take i).length = i := by
        rw [List.length_take]; omega
      simp only
      rw [List.take_append_of_le_length (by omega), List.take_take, min_self,
        List.drop_append_of_le_length (by omega), List.drop_of_length_le (by omega),
        List.nil_append, htake, take_succ_getElem _ _ hi, List.map_append, List.append_assoc]
      apply List.Sublist.append_left
      exact (List.drop_sublist _ _).trans hdrop

theorem asteroidLoop_one {α : Type} [LinearOrderedField α] (M : MathLib α) (canvas : Canvas α)
    (player : Player α) (a : Body α) (ps : List (Body α)) (gameOver : Bool) :
    asteroidLoop M canvas player 1 { asteroids := [a], projectiles := ps, gameOver := gameOver }
      = some
          { asteroids := (if offScreen canvas a.update then [] else [a.update]).drop
              (ps.countP fun p => circleClolosion M a.update p),
            projectiles := ps.filter fun p => !circleClolosion M a.update p,
            gameOver := if circleTriangleCollision M a.update (player.getVertices M)
              then true else gameOver } := by
  have hloop := fun as1 => collisionLoop_eq M a.update 0 ps.length as1 ps le_rfl
  simp only [List.take_length, List.drop_length, List.append_nil, List.take_zero,
    List.nil_append, List.drop_zero] at hloop
  simp only [asteroidLoop, List.getElem?_cons_zero, Option.bind_eq_bind, Option.some_bind,
    List.set_cons_zero, hloop]
  rfl

theorem circleClolosion_real (c1 c2 : Body ℝ) (hr : 0 ≤ c1.radius + c2.radius) :
    circleClolosion realMath c1 c2 =
      decide ((c2.position.x - c1.position.x) * (c2.position.x - c1.position.x)
          + (c2.position.y - c1.position.y) * (c2.position.y - c1.position.y)
        ≤ (c1.radius + c2.radius) * (c1.radius + c2.radius)) := by
  simp only [circleClolosion, realMath, sqrt_mul_self_add_le_iff _ _ _ hr]

/-- C11 fails as stated: on a canvas of 800 by 600, the projectile at (-5,300)
with velocity (-5,0) and the asteroid of radius 30 at (-21,300) with velocity
(1,0) overlap after their updates (centres 10 apart), but the projectile is
removed as off-screen before the collision test and the asteroid stays in its
collection. -/
theorem animate_overlap_counterexample :
    circleClolosion realMath
        (Body.update { position := ⟨-21, 300⟩, velocity := ⟨1, 0⟩, radius := 30 })
        (Body.update (Projectile.new ⟨-5, 300⟩ ⟨-5, 0⟩)) = true
    ∧ ∃ g', animate realMath { width := 800, height := 600 }
        { player := { position := ⟨400, 300⟩, velocity := ⟨0, 0⟩, rotation := 0 },
          keys := { w := false, a := false, d := false },
          projectiles := [Projectile.new ⟨-5, 300⟩ ⟨-5, 0⟩],
          asteroids := [{ position := ⟨-21, 300⟩, velocity := ⟨1, 0⟩, radius := 30 }],
          gameOver := false } = some g'
      ∧ g'.projectiles = []
      ∧ g'.asteroids = [{ position := ⟨-20, 300⟩, velocity := ⟨1, 0⟩, radius := 30 }] := by
  constructor
  · rw [circleClolosion_real _ _ (by norm_num [Body.update, Projectile.new])]
    norm_num [Body.update, Projectile.new]
  · have hoffp : offScreen ({ width := 800, height := 600 } : Canvas ℝ)
        (Body.update (Projectile.new ⟨-5, 300⟩ ⟨-5, 0⟩)) = true := by
      norm_num [offScreen, Body.update, Projectile.new]
    have hoffa : offScreen ({ width := 800, height := 600 } : Canvas ℝ)
        (Body.update { position := ⟨-21, 300⟩, velocity := ⟨1, 0⟩, radius := 30 }) = false := by
      norm_num [offScreen, Body.update]
    rw [animate_eq_asteroidLoop]
    simp only [List.map_cons, List.map_nil, List.filter_cons, List.filter_nil, hoffp,
      Bool.not_true, Bool.false_eq_true, if_false, List.length_singleton, asteroidLoop_one,
      Option.map_some', hoffa, List.countP_nil, List.drop_zero]
    refine ⟨_, rfl, rfl, ?_⟩
    norm_num [Body.update]

/-- C11, amended: after one frame no projectile left in its collection
intersects an asteroid left in its collection, both collections being
sub-lists of the updated ones; and with exactly one projectile and exactly one
asteroid whose circles overlap after their updates, the projectile not being
off-screen after its update, both collections are empty after the frame. -/
theorem animate_no_remaining_hit (canvas : Canvas ℝ) (g : Game ℝ) :
    ∃ g', animate realMath canvas g = some g'
      ∧ (∀ a ∈ g'.asteroids, ∀ p ∈ g'.projectiles, circleClolosion realMath a p = false)
      ∧ List.Sublist g'.projectiles (g.projectiles.map Body.update)
      ∧ List.Sublist g'.asteroids (g.asteroids.map Body.update)
      ∧ (∀ p a, g.projectiles = [p] → g.asteroids = [a] →
          circleClolosion realMath a.update p.update = true →
          offScreen canvas p.update = false →
          g'.projectiles = [] ∧ g'.asteroids = []) := by
  obtain ⟨st, hst, hclean, hps, has⟩ := asteroidLoop_clean realMath canvas g.player.update
    g.asteroids.length
    { asteroids := g.asteroids,
      projectiles := (g.projectiles.map Body.update).filter fun p => !offScreen canvas p,
      gameOver := g.gameOver } le_rfl (by simp)
  simp only [List.take_length, List.drop_length, List.append_nil] at has
  refine ⟨_, by rw [animate_eq_asteroidLoop, hst]; rfl, hclean,
    hps.trans (List.filter_sublist _), has, ?_⟩
  intro p a hp ha hhit hon
  simp only [hp, ha, List.map_cons, List.map_nil, List.filter_cons, List.filter_nil, hon,
    Bool.not_false, if_true, List.length_singleton, asteroidLoop_one, Option.some.injEq] at hst
  subst hst
  simp only [List.countP_cons, List.countP_nil, hhit, if_true, zero_add, List.filter_cons,
    List.filter_nil, Bool.not_true, Bool.false_eq_true, if_false]
  refine ⟨trivial, ?_⟩
  split_ifs <;> rfl

/-- C11 amended, at a concrete input: on a canvas of 800 by 600 the projectile
at (95,100) with velocity (5,0) and the asteroid of radius 20 at (99,100) with
velocity (1,0) both arrive at (100,100); both collections are empty after the
frame. -/
theorem animate_no_remaining_hit_witness :
    ∃ g', animate realMath { width := 800, height := 600 }
        { player := { position := ⟨400, 300⟩, velocity := ⟨0, 0⟩, rotation := 0 },
          keys := { w := false, a := false, d := false },
          projectiles := [Projectile.new ⟨95, 100⟩ ⟨5, 0⟩],
          asteroids := [{ position := ⟨99, 100⟩, velocity := ⟨1, 0⟩, radius := 20 }],
          gameOver := false } = some g'
      ∧ g'.projectiles = [] ∧ g'.asteroids = [] :=
  (animate_no_remaining_hit { width := 800, height := 600 }
      { player := { position := ⟨400, 300⟩, velocity := ⟨0, 0⟩, rotation := 0 },
        keys := { w := false, a := false, d := false },
        projectiles := [Projectile.new ⟨95, 100⟩ ⟨5, 0⟩],
        asteroids := [{ position := ⟨99, 100⟩, velocity := ⟨1, 0⟩, radius := 20 }],
        gameOver := false }).imp fun _ h =>
    ⟨h.1, h.2.2.2.2 _ _ rfl rfl
      (by
        rw [circleClolosion_real _ _ (by norm_num [Body.update, Projectile.new])]
        norm_num [Body.update, Projectile.new])
      (by norm_num [offScreen, Body.update, Projectile.new])⟩

theorem asteroidLoop_step {α : Type} [LinearOrderedField α] (M : MathLib α) (canvas : Canvas α)
    (player : Player α) (i : ℕ) (st : LoopState α) (a : Body α)
    (h : st.asteroids[i]? = some a) :
    asteroidLoop M canvas player (i + 1) st
      = asteroidLoop M canvas player i
          { asteroids :=
              (if offScreen canvas a.update then (st.asteroids.set i a.update).eraseIdx i
                else st.asteroids.set i a.update).take i
              ++ ((if offScreen canvas a.update then (st.asteroids.set i a.update).eraseIdx i
                    else st.asteroids.set i a.update).drop i).drop
                  (st.projectiles.countP fun p => circleClolosion M a.update p),
            projectiles := st.projectiles.filter fun p => !circleClolosion M a.update p,
            gameOver := if circleTriangleCollision M a.update (player.getVertices M)
              then true else st.gameOver } := by
  have hloop := fun as1 => collisionLoop_eq M a.update i st.projectiles.length as1
    st.projectiles le_rfl
  simp only [List.take_length, List.drop_length, List.append_nil] at hloop
  simp only [asteroidLoop, h, Option.bind_eq_bind, Option.some_bind, hloop]

theorem asteroidLoop_step_eval {α : Type} [LinearOrderedField α] (M : MathLib α)
    (canvas : Canvas α) (player : Player α) (i : ℕ) (asteroids projectiles : List (Body α))
    (gameOver : Bool) (a : Body α) (as ps : List (Body α))
    (h : asteroids[i]? = some a)
    (has : (if offScreen canvas a.update then (asteroids.set i a.update).eraseIdx i
                else asteroids.set i a.update).take i
              ++ ((if offScreen canvas a.update then (asteroids.set i a.update).eraseIdx i
                    else asteroids.set i a.update).drop i).drop
                  (projectiles.countP fun p => circleClolosion M a.update p) = as)
    (hps : (projectiles.filter fun p => !circleClolosion M a.update p) = ps) :
    ∃ go, asteroidLoop M canvas player (i + 1)
        { asteroids := asteroids, projectiles := projectiles, gameOver := gameOver }
      = asteroidLoop M canvas player i { asteroids := as, projectiles := ps, gameOver := go } :=
  ⟨_, by rw [asteroidLoop_step M canvas player i _ a h, has, hps]⟩

/-- C12 at the failing input: on a canvas of 800 by 600, with the asteroids
A0 = (99,100) and A1 = (399,400), both of radius 20 and velocity (1,0), and the
projectiles (95,100) and (95,110) of velocity (5,0): after its update A1 is
neither off-screen nor intersected by an updated projectile, both projectiles
intersect A0, and the asteroid collection is empty after the frame. -/
theorem animate_double_hit :
    offScreen ({ width := 800, height := 600 } : Canvas ℝ)
        (Body.update { position := ⟨399, 400⟩, velocity := ⟨1, 0⟩, radius := 20 }) = false
    ∧ (∀ p ∈ [Projectile.new (⟨95, 100⟩ : Vec ℝ) ⟨5, 0⟩, Projectile.new ⟨95, 110⟩ ⟨5, 0⟩],
        circleClolosion realMath
          (Body.update { position := ⟨399, 400⟩, velocity := ⟨1, 0⟩, radius := 20 })
          (Body.update p) = false)
    ∧ ∃ g', animate realMath { width := 800, height := 600 }
        { player := { position := ⟨700, 300⟩, velocity := ⟨0, 0⟩, rotation := 0 },
          keys := { w := false, a := false, d := false },
          projectiles := [Projectile.new ⟨95, 100⟩ ⟨5, 0⟩, Projectile.new ⟨95, 110⟩ ⟨5, 0⟩],
          asteroids := [{ position := ⟨99, 100⟩, velocity := ⟨1, 0⟩, radius := 20 },
                        { position := ⟨399, 400⟩, velocity := ⟨1, 0⟩, radius := 20 }],
          gameOver := false } = some g'
      ∧ g'.asteroids = [] ∧ g'.projectiles = [] := by
  have hr : ∀ (p q v w : Vec ℝ), (0 : ℝ) ≤ (Body.mk p v 20).radius + (Body.mk q w 5).radius :=
    fun _ _ _ _ => by norm_num
  refine ⟨by norm_num [offScreen, Body.update], ?_, ?_⟩
  · intro p hp
    simp only [List.mem_cons, List.mem_singleton, List.not_mem_nil, or_false] at hp
    rcases hp with rfl | rfl <;>
      simp only [Body.update, Projectile.new, circleClolosion_real _ _ (hr _ _ _ _)] <;>
      norm_num
  · have hps : ((List.map Body.update
          [Projectile.new (⟨95, 100⟩ : Vec ℝ) ⟨5, 0⟩, Projectile.new ⟨95, 110⟩ ⟨5, 0⟩]).filter
          fun p => !offScreen ({ width := 800, height := 600 } : Canvas ℝ) p)
        = [⟨⟨100, 100⟩, ⟨5, 0⟩, 5⟩, ⟨⟨100, 110⟩, ⟨5, 0⟩, 5⟩] := by
      norm_num [List.filter_cons, offScreen, Body.update, Projectile.new]
    have c1 : circleClolosion realMath (⟨⟨400, 400⟩, ⟨1, 0⟩, 20⟩ : Body ℝ)
        ⟨⟨100, 100⟩, ⟨5, 0⟩, 5⟩ = false := by
      rw [circleClolosion_real _ _ (hr _ _ _ _)]; norm_num
    have c2 : circleClolosion realMath (⟨⟨400, 400⟩, ⟨1, 0⟩, 20⟩ : Body ℝ)
        ⟨⟨100, 110⟩, ⟨5, 0⟩, 5⟩ = false := by
      rw [circleClolosion_real _ _ (hr _ _ _ _)]; norm_num
    have c3 : circleClolosion realMath (⟨⟨100, 100⟩, ⟨1, 0⟩, 20⟩ : Body ℝ)
        ⟨⟨100, 100⟩, ⟨5, 0⟩, 5⟩ = true := by
      rw [circleClolosion_real _ _ (hr _ _ _ _)]; norm_num
    have c4 : circleClolosion realMath (⟨⟨100, 100⟩, ⟨1, 0⟩, 20⟩ : Body ℝ)
        ⟨⟨100, 110⟩, ⟨5, 0⟩, 5⟩ = true := by
      rw [circleClolosion_real _ _ (hr _ _ _ _)]; norm_num
    obtain ⟨go1, h1⟩ := asteroidLoop_step_eval realMath
      ({ width := 800, height := 600 } : Canvas ℝ)
      (Player.update { position := ⟨700, 300⟩, velocity := ⟨0, 0⟩, rotation := 0 }) 1
      [{ position := ⟨99, 100⟩, velocity := ⟨1, 0⟩, radius := 20 },
       { position := ⟨399, 400⟩, velocity := ⟨1, 0⟩, radius := 20 }]
      [⟨⟨100, 100⟩, ⟨5, 0⟩, 5⟩, ⟨⟨100, 110⟩, ⟨5, 0⟩, 5⟩] false
      { position := ⟨399, 400⟩, velocity := ⟨1, 0⟩, radius := 20 }
      [{ position := ⟨99, 100⟩, velocity := ⟨1, 0⟩, radius := 20 },
       { position := ⟨400, 400⟩, velocity := ⟨1, 0⟩, radius := 20 }]
      [⟨⟨100, 100⟩, ⟨5, 0⟩, 5⟩, ⟨⟨100, 110⟩, ⟨5, 0⟩, 5⟩] rfl
      (by norm_num [Body.update, offScreen, List.countP_cons, c1, c2])
      (by norm_num [Body.update, List.filter_cons, c1, c2])
    obtain ⟨go2, h2⟩ := asteroidLoop_step_eval realMath
      ({ width := 800, height := 600 } : Canvas ℝ)
      (Player.update { position := ⟨700, 300⟩, velocity := ⟨0, 0⟩, rotation := 0 }) 0
      [{ position := ⟨99, 100⟩, velocity := ⟨1, 0⟩, radius := 20 },
       { position := ⟨400, 400⟩, velocity := ⟨1, 0⟩, radius := 20 }]
      [⟨⟨100, 100⟩, ⟨5, 0⟩, 5⟩, ⟨⟨100, 110⟩, ⟨5, 0⟩, 5⟩] go1
      { position := ⟨99, 100⟩, velocity := ⟨1, 0⟩, radius := 20 }
      [] [] rfl
      (by norm_num [Body.update, offScreen, List.countP_cons, c3, c4])
      (by norm_num [Body.update, List.filter_cons, c3, c4])
    rw [animate_eq_asteroidLoop]
    simp only [hps, List.length_cons, List.length_nil, zero_add, Nat.reduceAdd]
    rw [h1, h2]
    exact ⟨_, rfl, rfl, rfl⟩

/-- C13 fails as stated: on a canvas of 800 by 600 the projectile of radius 5
at (-10,300) with velocity (5,0) is at (-5,300) after its update, where
`x + radius < 0` is false, and it stays in its collection. -/
theorem projectileLoop_prunes_counterexample :
    projectileLoop ({ width := 800, height := 600 } : Canvas ℝ) 1
        [Projectile.new ⟨-10, 300⟩ ⟨5, 0⟩]
      = some [{ position := ⟨-5, 300⟩, velocity := ⟨5, 0⟩, radius := 5 }] := by
  rw [projectileLoop_eq _ _ _ (by simp)]
  norm_num [List.filter_cons, offScreen, Body.update, Projectile.new]

/-- C13, amended: with screen width 800, a projectile of radius 5 whose x
position is -10 at the start of the frame and whose velocity has an x component
less than 5 is removed by the projectile pass: the pass gives the same list as
on the collection without it, and the updated projectile is not in that
list. -/
theorem projectileLoop_prunes (canvas : Canvas ℝ) (l1 l2 : List (Body ℝ)) (p : Body ℝ)
    (_hw : canvas.width = 800) (hr : p.radius = 5) (hx : p.position.x = -10)
    (hv : p.velocity.x < 5) :
    ∃ ps, projectileLoop canvas (l1 ++ p :: l2).length (l1 ++ p :: l2) = some ps
      ∧ projectileLoop canvas (l1 ++ l2).length (l1 ++ l2) = some ps
      ∧ p.update ∉ ps := by
  have hoff : offScreen canvas p.update = true := by
    simp only [offScreen, Body.update, hr, hx, Bool.or_eq_true, decide_eq_true_eq]
    left; left; left
    linarith
  refine ⟨_, projectileLoop_eq _ _ _ le_rfl, ?_, ?_⟩
  · rw [projectileLoop_eq _ _ _ le_rfl]
    simp only [List.take_length, List.drop_length, List.append_nil, List.map_append,
      List.map_cons, List.filter_append, List.filter_cons, hoff, Bool.not_true,
      Bool.false_eq_true, if_false]
  · simp only [List.take_length, List.drop_length, List.append_nil, List.mem_filter, hoff,
      Bool.not_true, Bool.false_eq_true, and_false, not_false_eq_true]

/-- C13 amended, at a concrete input: the projectile at (-10,300) with velocity
(-5,0), alone in its collection, on a canvas of 800 by 600. -/
theorem projectileLoop_prunes_witness :
    ∃ ps, projectileLoop ({ width := 800, height := 600 } : Canvas ℝ)
          (([] : List (Body ℝ)) ++ Projectile.new (⟨-10, 300⟩ : Vec ℝ) ⟨-5, 0⟩ :: []).length
          (([] : List (Body ℝ)) ++ Projectile.new (⟨-10, 300⟩ : Vec ℝ) ⟨-5, 0⟩ :: []) = some ps
      ∧ projectileLoop ({ width := 800, height := 600 } : Canvas ℝ)
          (([] : List (Body ℝ)) ++ []).length (([] : List (Body ℝ)) ++ []) = some ps
      ∧ (Projectile.new (⟨-10, 300⟩ : Vec ℝ) ⟨-5, 0⟩).update ∉ ps :=
  projectileLoop_prunes { width := 800, height := 600 } [] []
    (Projectile.new ⟨-10, 300⟩ ⟨-5, 0⟩) rfl rfl rfl (by norm_num [Projectile.new])

/-- C14: the projectile pass returns the updated projectiles that are not
off-screen, in their original order; an update advances the position by the
velocity and keeps velocity and radius; off-screen means one of `x + r < 0`,
`x - r > width`, `y - r > height`, `y + r < 0`. -/
theorem projectileLoop_keeps (canvas : Canvas ℝ) (projectiles : List (Body ℝ)) :
    projectileLoop canvas projectiles.length projectiles
        = some ((projectiles.map Body.update).filter fun p => !offScreen canvas p)
    ∧ (∀ p : Body ℝ,
        p.update.position = ⟨p.position.x + p.velocity.x, p.position.y + p.velocity.y⟩
        ∧ p.update.velocity = p.velocity ∧ p.update.radius = p.radius)
    ∧ (∀ b : Body ℝ, offScreen canvas b = true ↔
        (b.position.x + b.radius < 0 ∨ b.position.x - b.radius > canvas.width
          ∨ b.position.y - b.radius > canvas.height ∨ b.position.y + b.radius < 0)) := by
  refine ⟨?_, fun p => ⟨rfl, rfl, rfl⟩, fun b => ?_⟩
  · rw [projectileLoop_eq _ _ _ le_rfl]
    simp only [List.take_length, List.drop_length, List.append_nil]
  · simp only [offScreen, Bool.or_eq_true, decide_eq_true_eq, or_assoc]

/-- C15: after one frame the rotation is the old one plus 0.06 when `d` is
pressed, minus 0.06 when only `a` is pressed, and unchanged when neither is;
no reduction modulo 2π takes place. -/
theorem animate_rotation (canvas : Canvas ℝ) (g : Game ℝ) :
    ∃ g', animate realMath canvas g = some g'
      ∧ (g.keys.d = true → g'.player.rotation = g.player.rotation + 0.06)
      ∧ (g.keys.d = false → g.keys.a = true → g'.player.rotation = g.player.rotation - 0.06)
      ∧ (g.keys.d = false → g.keys.a = false → g'.player.rotation = g.player.rotation) := by
  obtain ⟨ps, as, h⟩ := animate_spec realMath canvas g
  refine ⟨_, h, ?_, ?_, ?_⟩
  · intro hd; simp only [hd, if_true]
  · intro hd ha; simp only [hd, ha, Bool.false_eq_true, if_false, if_true]
  · intro hd ha; simp only [hd, ha, Bool.false_eq_true, if_false]

/-- C15, at a concrete input: rotation 7 (more than 2π) with both `a` and `d`
pressed becomes 7.06. -/
theorem animate_rotation_witness :
    ∃ g', animate realMath { width := 800, height := 600 }
        { player := { position := ⟨400, 300⟩, velocity := ⟨0, 0⟩, rotation := 7 },
          keys := { w := false, a := true, d := true },
          projectiles := [], asteroids := [], gameOver := false } = some g'
      ∧ g'.player.rotation = 7 + 0.06 :=
  (animate_rotation { width := 800, height := 600 }
      { player := { position := ⟨400, 300⟩, velocity := ⟨0, 0⟩, rotation := 7 },
        keys := { w := false, a := true, d := true },
        projectiles := [], asteroids := [], gameOver := false }).imp
    fun _ h => ⟨h.1, h.2.1 rfl⟩

/-- C16: the `keydown` listener on 'Space' appends one projectile at the end of
the projectile collection and changes nothing else; the new projectile is at
the player's position plus 30 (cos rotation, sin rotation), which is the first
point of `getVertices`, its velocity is 5 (cos rotation, sin rotation), of
magnitude 5, and its radius is 5. -/
theorem keydown_space (g : Game ℝ) :
    ∃ np : Body ℝ,
      keydown realMath "Space" g =
          { player := g.player, keys := g.keys, projectiles := g.projectiles ++ [np],
            asteroids := g.asteroids, gameOver := g.gameOver }
      ∧ np.position = ⟨g.player.position.x + 30 * Real.cos g.player.rotation,
                        g.player.position.y + 30 * Real.sin g.player.rotation⟩
      ∧ np.position = g.player.getVertices realMath 0
      ∧ np.velocity = ⟨5 * Real.cos g.player.rotation, 5 * Real.sin g.player.rotation⟩
      ∧ Real.sqrt (np.velocity.x ^ 2 + np.velocity.y ^ 2) = 5
      ∧ np.radius = 5 := by
  refine ⟨Projectile.new
      { x := g.player.position.x + realMath.cos g.player.rotation * 30,
        y := g.player.position.y + realMath.sin g.player.rotation * 30 }
      { x := realMath.cos g.player.rotation * 5, y := realMath.sin g.player.rotation * 5 },
    ?_, ?_, ?_, ?_, ?_, rfl⟩
  · simp [keydown]
  · simp only [Projectile.new, realMath, Vec.mk.injEq]
    constructor <;> ring
  · simp only [Projectile.new, Player.getVertices, realMath, Matrix.cons_val_zero,
      Vec.mk.injEq]
    constructor <;> ring
  · simp only [Projectile.new, realMath, Vec.mk.injEq]
    constructor <;> ring
  · simp only [Projectile.new, realMath]
    have h : (Real.cos g.player.rotation * 5) ^ 2 + (Real.sin g.player.rotation * 5) ^ 2
        = 5 ^ 2 := by
      linear_combination 25 * Real.cos_sq_add_sin_sq g.player.rotation
    rw [h, Real.sqrt_sq (by norm_num)]

/-- C17 at the failing input: the triangle of the player at (400,300) with
rotation 0 has the vertex (390,310); the circle of radius 10 centred at
(387,314) is at distance 5 from that vertex, and `circleTriangleCollision` is
false on it. -/
theorem circleTriangleCollision_misses_vertex :
    Player.getVertices realMath
        { position := ⟨400, 300⟩, velocity := ⟨0, 0⟩, rotation := 0 } 1 = ⟨390, 310⟩
    ∧ dist (⟨387, 314⟩ : Vec ℝ).toEuclidean (⟨390, 310⟩ : Vec ℝ).toEuclidean = 5
    ∧ circleTriangleCollision realMath
        { position := ⟨387, 314⟩, velocity := ⟨1, 0⟩, radius := 10 }
        (Player.getVertices realMath
          { position := ⟨400, 300⟩, velocity := ⟨0, 0⟩, rotation := 0 }) = false := by
  have hr : ∀ p w : Vec ℝ, (0 : ℝ) ≤ (Body.mk p w 10 : Body ℝ).radius :=
    fun _ _ => by norm_num
  refine ⟨?_, ?_, ?_⟩
  · simp only [Player.getVertices, realMath, Real.cos_zero, Real.sin_zero,
      Matrix.cons_val_one, Matrix.head_cons]
    norm_num
  · rw [dist_toEuclidean]
    have h : ((387 : ℝ) - 390) ^ 2 + (314 - 310) ^ 2 = 5 ^ 2 := by norm_num
    simp only [h]
    exact Real.sqrt_sq (by norm_num)
  · rw [circleTriangleCollision_eq]
    simp only [Player.getVertices, realMath, Real.cos_zero, Real.sin_zero,
      Matrix.cons_val_zero, Matrix.cons_val_one, Matrix.head_cons, Matrix.cons_val_two,
      Matrix.tail_cons]
    simp only [← realMath.eq_def, edgeCollision_real _ _ _ (hr _ _), closestPoint,
      projection_real]
    norm_num [isPointOnLineSegment]

/-- C19: with the three draws in [0,1) and a canvas of positive width and
height, the asteroid built by the spawner is not off-screen after its first
update. -/
theorem spawn_not_offScreen (canvas : Canvas ℝ) (rand0 rand1 rand2 : ℝ)
    (hW : 0 < canvas.width) (hH : 0 < canvas.height)
    (h0 : 0 ≤ rand0 ∧ rand0 < 1) (h1 : 0 ≤ rand1 ∧ rand1 < 1) (h2 : 0 ≤ rand2 ∧ rand2 < 1) :
    ∃ a, spawn canvas rand0 rand1 rand2 = some a
      ∧ (10 ≤ a.radius ∧ a.radius < 60)
      ∧ offScreen canvas a.update = false := by
  have hlo : (0 : ℤ) ≤ ⌊rand0 * 4⌋ := Int.floor_nonneg.mpr (by linarith [h0.1])
  have hhi : ⌊rand0 * 4⌋ < (4 : ℤ) := Int.floor_lt.mpr (by push_cast; linarith [h0.2])
  have hcases : ⌊rand0 * 4⌋ = 0 ∨ ⌊rand0 * 4⌋ = 1 ∨ ⌊rand0 * 4⌋ = 2 ∨ ⌊rand0 * 4⌋ = 3 := by
    omega
  have hx0 : 0 ≤ rand2 * canvas.width := mul_nonneg h2.1 hW.le
  have hx1 : rand2 * canvas.width < canvas.width := by nlinarith [h2.2]
  have hy0 : 0 ≤ rand2 * canvas.height := mul_nonneg h2.1 hH.le
  have hy1 : rand2 * canvas.height < canvas.height := by nlinarith [h2.2]
  have hoff : ∀ b : Body ℝ, offScreen canvas b = false ↔
      ¬ (b.position.x + b.radius < 0) ∧ ¬ (b.position.x - b.radius > canvas.width)
        ∧ ¬ (b.position.y - b.radius > canvas.height) ∧ ¬ (b.position.y + b.radius < 0) := by
    intro b
    simp only [offScreen, Bool.or_eq_false_iff, decide_eq_false_iff_not, and_assoc]
  rcases hcases with h | h | h | h
  · refine ⟨_, by simp only [spawn, h]; rfl, ⟨by simp; linarith [h1.1], by simp; linarith [h1.2]⟩,
      ?_⟩
    rw [hoff]
    simp only [Body.update, not_lt, gt_iff_lt]
    refine ⟨?_, ?_, ?_, ?_⟩ <;> linarith [h1.1]
  · refine ⟨_, by simp only [spawn, h]; rfl, ⟨by simp; linarith [h1.1], by simp; linarith [h1.2]⟩,
      ?_⟩
    rw [hoff]
    simp only [Body.update, not_lt, gt_iff_lt]
    refine ⟨?_, ?_, ?_, ?_⟩ <;> linarith [h1.1]
  · refine ⟨_, by simp only [spawn, h]; rfl, ⟨by simp; linarith [h1.1], by simp; linarith [h1.2]⟩,
      ?_⟩
    rw [hoff]
    simp only [Body.update, not_lt, gt_iff_lt]
    refine ⟨?_, ?_, ?_, ?_⟩ <;> linarith [h1.1]
  · refine ⟨_, by simp only [spawn, h]; rfl, ⟨by simp; linarith [h1.1], by simp; linarith [h1.2]⟩,
      ?_⟩
    rw [hoff]
    simp only [Body.update, not_lt, gt_iff_lt]
    refine ⟨?_, ?_, ?_, ?_⟩ <;> linarith [h1.1]

/-- C19, at a concrete input: the draws 1/2, 1/2, 1/4 on a canvas of 800 by
600. -/
theorem spawn_not_offScreen_witness :
    ∃ a, spawn ({ width := 800, height := 600 } : Canvas ℝ) (1 / 2) (1 / 2) (1 / 4) = some a
      ∧ (10 ≤ a.radius ∧ a.radius < 60)
      ∧ offScreen ({ width := 800, height := 600 } : Canvas ℝ) a.update = false :=
  spawn_not_offScreen { width := 800, height := 600 } (1 / 2) (1 / 2) (1 / 4)
    (by norm_num) (by norm_num) (by norm_num) (by norm_num) (by norm_num)

theorem keydown_player {α : Type} [LinearOrderedField α] (M : MathLib α) (code : String)
    (g : Game α) : (keydown M code g).player = g.player := by
  unfold keydown
  split_ifs <;> rfl

theorem keyup_player {α : Type} [LinearOrderedField α] (code : String) (g : Game α) :
    (keyup code g).player = g.player := by
  unfold keyup
  split_ifs <;> rfl

theorem animate_speed (canvas : Canvas ℝ) (g : Game ℝ) :
    ∃ g', animate realMath canvas g = some g'
      ∧ (g.keys.w = true →
          Real.sqrt (g'.player.velocity.x ^ 2 + g'.player.velocity.y ^ 2) = 3)
      ∧ (Real.sqrt (g.player.velocity.x ^ 2 + g.player.velocity.y ^ 2) ≤ 3 →
          Real.sqrt (g'.player.velocity.x ^ 2 + g'.player.velocity.y ^ 2) ≤ 3) := by
  obtain ⟨ps, as, h⟩ := animate_spec realMath canvas g
  have hthrust : Real.sqrt ((Real.cos g.player.rotation * 3) ^ 2
      + (Real.sin g.player.rotation * 3) ^ 2) = 3 := by
    have e : (Real.cos g.player.rotation * 3) ^ 2 + (Real.sin g.player.rotation * 3) ^ 2
        = 3 ^ 2 := by
      linear_combination 9 * Real.cos_sq_add_sin_sq g.player.rotation
    rw [e, Real.sqrt_sq (by norm_num)]
  refine ⟨_, h, ?_, ?_⟩
  · intro hw
    simp only [hw, if_true, SPEED, realMath]
    exact hthrust
  · intro hle
    by_cases hw : g.keys.w = true
    · simp only [hw, if_true, SPEED, realMath]
      exact hthrust.le
    · simp only [hw, Bool.false_eq_true, if_false, FRICTION]
      rw [sqrt_scale _ _ _ (by norm_num)]
      have h0 := Real.sqrt_nonneg (g.player.velocity.x ^ 2 + g.player.velocity.y ^ 2)
      nlinarith

theorem run_speed_le (canvas : Canvas ℝ) (events : List Event) (g : Game ℝ)
    (hle : Real.sqrt (g.player.velocity.x ^ 2 + g.player.velocity.y ^ 2) ≤ 3) :
    ∃ g', run realMath canvas events g = some g'
      ∧ Real.sqrt (g'.player.velocity.x ^ 2 + g'.player.velocity.y ^ 2) ≤ 3 := by
  induction events generalizing g with
  | nil => exact ⟨g, rfl, hle⟩
  | cons e es ih =>
    cases e with
    | frame =>
      obtain ⟨g1, h1, _, hkeep⟩ := animate_speed canvas g
      obtain ⟨g', h', hle'⟩ := ih g1 (hkeep hle)
      exact ⟨g', by simp only [run, step, h1, Option.some_bind]; exact h', hle'⟩
    | keydown code =>
      obtain ⟨g', h', hle'⟩ := ih (keydown realMath code g)
        (by rw [keydown_player]; exact hle)
      exact ⟨g', by simp only [run, step, Option.some_bind]; exact h', hle'⟩
    | keyup code =>
      obtain ⟨g', h', hle'⟩ := ih (keyup code g) (by rw [keyup_player]; exact hle)
      exact ⟨g', by simp only [run, step, Option.some_bind]; exact h', hle'⟩

/-- C18: from the initial state, every finite sequence of frames and key
events ends in a state whose player speed is at most 3; and whenever the
forward key is pressed in that state, the next frame ends with speed exactly
3. -/
theorem run_speed (canvas : Canvas ℝ) (events : List Event) :
    ∃ g', run realMath canvas events (Game.init canvas) = some g'
      ∧ Real.sqrt (g'.player.velocity.x ^ 2 + g'.player.velocity.y ^ 2) ≤ SPEED
      ∧ (g'.keys.w = true →
          ∃ g'', run realMath canvas (events ++ [Event.frame]) (Game.init canvas) = some g''
            ∧ animate realMath canvas g' = some g''
            ∧ Real.sqrt (g''.player.velocity.x ^ 2 + g''.player.velocity.y ^ 2) = SPEED) := by
  have hrun_append : ∀ (es : List Event) (g g1 : Game ℝ),
      run realMath canvas es g = some g1 →
      run realMath canvas (es ++ [Event.frame]) g = animate realMath canvas g1 := by
    intro es
    induction es with
    | nil =>
      intro g g1 h
      simp only [run, Option.some.injEq] at h
      subst h
      simp only [List.nil_append, run, step]
      cases animate realMath canvas g <;> rfl
    | cons e es ih =>
      intro g g1 h
      simp only [List.cons_append, run] at h ⊢
      cases hs : step realMath canvas e g with
      | none => rw [hs] at h; simp at h
      | some g2 =>
        rw [hs, Option.some_bind] at h
        simp only [Option.some_bind]
        exact ih g2 g1 h
  obtain ⟨g', h', hle'⟩ := run_speed_le canvas events (Game.init canvas)
    (by simp [Game.init])
  refine ⟨g', h', by simpa only [SPEED] using hle', fun hw => ?_⟩
  obtain ⟨g'', h'', heq, _⟩ := animate_speed canvas g'
  exact ⟨g'', by rw [hrun_append events _ g' h', h''], h'', by simpa only [SPEED] using heq hw⟩

/-- C18, at a concrete input: the forward key is pressed, then two frames
run. -/
theorem run_speed_witness :
    ∃ g', run realMath { width := 800, height := 600 }
        [Event.keydown "KeyW", Event.frame, Event.frame]
        (Game.init { width := 800, height := 600 }) = some g'
      ∧ Real.sqrt (g'.player.velocity.x ^ 2 + g'.player.velocity.y ^ 2) ≤ SPEED :=
  (run_speed { width := 800, height := 600 }
      [Event.keydown "KeyW", Event.frame, Event.frame]).imp fun _ h => ⟨h.1, h.2.1⟩

end Astroid
